import Mathlib

/-!
Verification development for the identity-mapping core of
logandavies181/aws-iam-authenticator.

The Go sources are shallowly embedded as Lean functions:

* `pkg/mapper/file/mapper.go`      → `NewFileMapper`, `FileMapper.Map`, …
* `pkg/mapper/configmap/configmap.go` → `MapStore`, `saveMap`, `ParseMap`,
  `EncodeMap`, the four store lookups, and the watch-event processing body
* `pkg/mapper/configmap/mapper.go` → `ConfigMapMapper.Map`
* `pkg/mapper/configmap/client/client.go` → `clientAdd`

Go `map[string]T` values are modelled as association lists with
overwrite-on-insert (`mapInsert`); Go's unspecified map iteration order is
determinized to insertion order.  Go's `(value, error)` multiple returns are
modelled as `Except` (when the zero value is never inspected) or as a pair
`value × Option Err` (for the store lookups, whose zero-value result is
specified).  YAML/JSON (de)serialization of the configmap fields is abstracted:
a document field holds the decoded record list itself (`ConfigMapData`).

Two helpers used by the sources are not part of the source tree and are
modelled from the spec, as marked in their doc comments:
`arn.Canonicalize` (repository package `pkg/arn`) and `arnlike.ArnLike`
(library `github.com/logandavies181/arnlike`).
-/

/-! ### ASCII lower-casing (models Go `strings.ToLower` on ASCII input) -/

/-- Lower-case a single character: `'A'..'Z'` (code points 65–90) map to
`'a'..'z'` (code points 97–122); everything else is unchanged.  Models the
ASCII fragment of Go's `strings.ToLower`. -/
def toLowerChar (c : Char) : Char :=
  if h : 65 ≤ c.toNat ∧ c.toNat ≤ 90 then
    ⟨⟨⟨⟨c.toNat + 32, by omega⟩⟩⟩, Or.inl (by
      show c.toNat + 32 < 55296
      omega)⟩
  else c

/-- Lower-case a string character-wise. -/
def lowerStr (s : String) : String := ⟨s.data.map toLowerChar⟩

/-- `c` is an ASCII upper-case letter. -/
def isUpperA (c : Char) : Bool := decide (65 ≤ c.toNat ∧ c.toNat ≤ 90)

/-! ### Glob matching and ARN shape

Modelled from the spec (§3, §4.1): the matcher of
`github.com/logandavies181/arnlike` — a library outside this source tree —
treats the entire pattern as one glob (`*` = any run of characters, `?` = any
single character) matched against the whole candidate string, and returns an
error (never a panic) when the candidate or the pattern is not ARN-shaped.

The matcher is written with explicit structural fuel so that it reduces inside
the kernel; every recursive call strictly decreases the combined length of the
two lists, so the starting fuel of `globMatch` can never run out. -/

/-- Fueled glob matcher over character lists.  `*` matches any run of
characters, `?` exactly one, any other pattern character only its literal
self.  Fuel `0` (never reached from `globMatch`) returns `false`. -/
def globAux : Nat → List Char → List Char → Bool
  | 0, _, _ => false
  | n + 1, p, s =>
    match p, s with
    | [], [] => true
    | [], _ :: _ => false
    | q :: ps, [] => if q = '*' then globAux n ps [] else false
    | q :: ps, c :: cs =>
      if q = '*' then globAux n ps (c :: cs) || globAux n (q :: ps) cs
      else if q = '?' then globAux n ps cs
      else q == c && globAux n ps cs

/-- Whole-string glob match of pattern `p` against subject `s`.  The fuel
`p.length + s.length + 1` strictly exceeds the combined length, which every
recursive call decreases, so the fuel-exhausted branch is unreachable. -/
def globMatch (p s : String) : Bool :=
  globAux (p.length + s.length + 1) p.data s.data

/-! ### ARN shape, `ArnLike`, `Canonicalize` -/

/-- The character list begins with the literal characters `arn:`. -/
def startsWithArn : List Char → Bool
  | 'a' :: 'r' :: 'n' :: ':' :: _ => true
  | _ => false

/-- Minimal ARN shape used by the matcher's malformed-input check: the string
starts with `arn:` and has at least six colon-separated sections (five
colons), per the canonical form `arn:partition:service:region:account:resource`
of spec §3. -/
def arnShaped (s : String) : Bool :=
  startsWithArn s.data && decide (5 ≤ s.data.countP (fun c => c = ':'))

/-- Modelled from the spec (§3, §4.1): `ArnLike(subject, pattern)` of the
external library `github.com/logandavies181/arnlike` (not part of this source
tree).  It fails with an error — never panics — when the subject or the
pattern is not ARN-shaped, and otherwise evaluates the pattern as one glob
(`*`/`?` semantics) over the full subject string. -/
def ArnLike (subject pat : String) : Except String Bool :=
  if arnShaped subject = false then
    .error ("could not parse input arn: " ++ subject)
  else if arnShaped pat = false then
    .error ("could not parse arnLike string: " ++ pat)
  else
    .ok (globMatch pat subject)

/-- Modelled from the spec (§4.1): `Canonicalize` of repository package
`pkg/arn` (not under the embedded source tree): validates the ARN shape and
returns the lower-cased canonical form, or a malformed-ARN error. -/
def Canonicalize (s : String) : Except String String :=
  if arnShaped s then .ok (lowerStr s) else .error ("malformed ARN: " ++ s)

/-! ### Record types (`pkg/config`) -/

/-- `config.RoleMapping`: associates an IAM role, by exact ARN or by ARN-like
pattern, with a username and groups. -/
structure RoleMapping where
  roleARN : String
  roleARNLike : String
  username : String
  groups : List String
deriving DecidableEq, Repr

/-- `config.UserMapping`: associates an IAM user, by exact ARN or by ARN-like
pattern, with a username and groups. -/
structure UserMapping where
  userARN : String
  userARNLike : String
  username : String
  groups : List String
deriving DecidableEq, Repr

/-- `config.IdentityMapping`: the result of a successful resolution. -/
structure IdentityMapping where
  identityARN : String
  username : String
  groups : List String
deriving DecidableEq, Repr

/-- `config.Config`: the static configuration consumed by `NewFileMapper`. -/
structure Config where
  roleMappings : List RoleMapping
  userMappings : List UserMapping
  autoMappedAWSAccounts : List String
deriving DecidableEq, Repr

/-- The error values surfaced by the mappers and the store lookups.
`notMapped` models `mapper.ErrNotMapped` (package `pkg/mapper`, outside the
embedded tree; the spec's generic `NotMapped` failure); the four typed misses
model the four error variables of `pkg/mapper/configmap/configmap.go`; and
`arnLike` wraps an error propagated from `ArnLike` or `Canonicalize`. -/
inductive Err where
  | notMapped
  | userNotFound
  | roleNotFound
  | userARNLikeNotMatched
  | roleARNLikeNotMatched
  | arnLike (msg : String)
deriving DecidableEq, Repr

/-! ### Association lists modelling Go `map[string]T` -/

/-- Lookup in an association list (Go `v, ok := m[k]`). -/
def lookupKey {α : Type} (k : String) : List (String × α) → Option α
  | [] => none
  | (k', v) :: rest => if k' = k then some v else lookupKey k rest

/-- Insertion with overwrite (Go `m[k] = v`).  An existing binding for the
key is replaced in place; a new key is appended.  Iteration order of Go maps
is unspecified; this model determinizes it to insertion order. -/
def mapInsert {α : Type} (k : String) (v : α) : List (String × α) → List (String × α)
  | [] => [(k, v)]
  | (k', v') :: rest => if k' = k then (k, v) :: rest else (k', v') :: mapInsert k v rest

/-! ### Static backend: `pkg/mapper/file/mapper.go` -/

/-- The four lookup tables plus the account set of `file.FileMapper`. -/
structure FileMapper where
  lowercaseRoleMap : List (String × RoleMapping)
  roleArnLikeMap : List (String × RoleMapping)
  lowercaseUserMap : List (String × UserMapping)
  userArnLikeMap : List (String × UserMapping)
  accountMap : List String
deriving DecidableEq, Repr

/-- One iteration of the role loop of `NewFileMapper` (mapper.go:32–55):
validate the entry and insert it into the exact or the pattern table. -/
def roleStep (fm : FileMapper) (m : RoleMapping) : Except String FileMapper :=
  if m.roleARN = "" ∧ m.roleARNLike = "" then
    .error "One of rolearn or rolearnLike must be supplied"
  else if m.roleARN ≠ "" ∧ m.roleARNLike ≠ "" then
    .error "Only of rolearn or rolearnLike can be supplied"
  else if m.roleARN ≠ "" then
    match Canonicalize (lowerStr m.roleARN) with
    | .error e => .error ("error canonicalizing ARN: " ++ e)
    | .ok canonicalizedARN =>
      .ok { fm with lowercaseRoleMap := mapInsert canonicalizedARN m fm.lowercaseRoleMap }
  else
    match ArnLike m.roleARNLike "arn:*:iam:*:*:role/*" with
    | .error e => .error e
    | .ok false =>
      .error ("RoleARNLike '" ++ m.roleARNLike ++ "' did not match an ARN for an IAM Role")
    | .ok true =>
      .ok { fm with roleArnLikeMap := mapInsert m.roleARNLike m fm.roleArnLikeMap }

/-- One iteration of the user loop of `NewFileMapper` (mapper.go:56–80). -/
def userStep (fm : FileMapper) (m : UserMapping) : Except String FileMapper :=
  if m.userARN = "" ∧ m.userARNLike = "" then
    .error "One of userarn or userarnLike must be supplied"
  else if m.userARN ≠ "" ∧ m.userARNLike ≠ "" then
    .error "Only one of userarn or userarnLike can be supplied"
  else if m.userARN ≠ "" then
    match Canonicalize (lowerStr m.userARN) with
    | .error e => .error ("error canonicalizing ARN: " ++ e)
    | .ok canonicalizedARN =>
      .ok { fm with lowercaseUserMap := mapInsert canonicalizedARN m fm.lowercaseUserMap }
  else
    match ArnLike m.userARNLike "arn:*:iam:*:*:user/*" with
    | .error e => .error e
    | .ok false =>
      .error ("UserARNLike '" ++ m.userARNLike ++ "' did not match an ARN for an IAM User")
    | .ok true =>
      .ok { fm with userArnLikeMap := mapInsert m.userARNLike m fm.userArnLikeMap }

/-- Run the role loop over the whole list, stopping at the first error. -/
def rolesLoop (fm : FileMapper) : List RoleMapping → Except String FileMapper
  | [] => .ok fm
  | m :: rest =>
    match roleStep fm m with
    | .error e => .error e
    | .ok fm' => rolesLoop fm' rest

/-- Run the user loop over the whole list, stopping at the first error. -/
def usersLoop (fm : FileMapper) : List UserMapping → Except String FileMapper
  | [] => .ok fm
  | m :: rest =>
    match userStep fm m with
    | .error e => .error e
    | .ok fm' => usersLoop fm' rest

/-- `file.NewFileMapper` (mapper.go:23–86): build the four tables from the
static configuration, failing on the first invalid entry; finally record the
auto-mapped accounts. -/
def NewFileMapper (cfg : Config) : Except String FileMapper :=
  let fm0 : FileMapper := ⟨[], [], [], [], []⟩
  match rolesLoop fm0 cfg.roleMappings with
  | .error e => .error e
  | .ok fm1 =>
    match usersLoop fm1 cfg.userMappings with
    | .error e => .error e
    | .ok fm2 =>
      .ok { fm2 with
        accountMap := cfg.autoMappedAWSAccounts.foldl (fun acc a => acc ++ [a]) fm2.accountMap }

/-- The linear scan over the role ARN-like table inside `FileMapper.Map`
(mapper.go:126–139): the first pattern-evaluation error aborts the scan, the
first match returns its entry's identity. -/
def scanRoleArnLikes (canonicalARN : String) :
    List (String × RoleMapping) → Except String (Option IdentityMapping)
  | [] => .ok none
  | (_, m) :: rest =>
    match ArnLike canonicalARN m.roleARNLike with
    | .error e => .error e
    | .ok true => .ok (some ⟨canonicalARN, m.username, m.groups⟩)
    | .ok false => scanRoleArnLikes canonicalARN rest

/-- The linear scan over the user ARN-like table inside `FileMapper.Map`
(mapper.go:141–154). -/
def scanUserArnLikes (canonicalARN : String) :
    List (String × UserMapping) → Except String (Option IdentityMapping)
  | [] => .ok none
  | (_, m) :: rest =>
    match ArnLike canonicalARN m.userARNLike with
    | .error e => .error e
    | .ok true => .ok (some ⟨canonicalARN, m.username, m.groups⟩)
    | .ok false => scanUserArnLikes canonicalARN rest

/-- `FileMapper.Map` (mapper.go:107–157): lower-case the input, then exact
role lookup, exact user lookup, role pattern scan, user pattern scan; a
pattern-evaluation error is propagated to the caller; otherwise the first hit
wins, and a full miss is `ErrNotMapped`. -/
def FileMapper.Map (fm : FileMapper) (arnIn : String) : Except Err IdentityMapping :=
  let canonicalARN := lowerStr arnIn
  match lookupKey canonicalARN fm.lowercaseRoleMap with
  | some roleMapping => .ok ⟨canonicalARN, roleMapping.username, roleMapping.groups⟩
  | none =>
  match lookupKey canonicalARN fm.lowercaseUserMap with
  | some userMapping => .ok ⟨canonicalARN, userMapping.username, userMapping.groups⟩
  | none =>
  match scanRoleArnLikes canonicalARN fm.roleArnLikeMap with
  | .error e => .error (.arnLike e)
  | .ok (some im) => .ok im
  | .ok none =>
  match scanUserArnLikes canonicalARN fm.userArnLikeMap with
  | .error e => .error (.arnLike e)
  | .ok (some im) => .ok im
  | .ok none => .error .notMapped

/-- `FileMapper.IsAccountAllowed` (mapper.go:159–161). -/
def FileMapper.IsAccountAllowed (fm : FileMapper) (accountID : String) : Bool :=
  fm.accountMap.contains accountID

/-! ### Concurrent mapping store: `pkg/mapper/configmap/configmap.go`

The store's `sync.RWMutex` is not represented on the sequential lookup
functions; the lock discipline itself is analysed separately by the
interleaving semantics further below (`WriterStep`, `Exec`). -/

/-- The five tables of `configmap.MapStore` (configmap.go:28–38); the
Kubernetes client handle and the metrics sink are out-of-scope collaborators
and are omitted. -/
structure MapStore where
  users : List (String × UserMapping)
  userArnLikes : List (String × UserMapping)
  roles : List (String × RoleMapping)
  roleArnLikes : List (String × RoleMapping)
  awsAccounts : List String
deriving DecidableEq, Repr

/-- `MapStore.saveMap` (configmap.go:240–270) as a pure snapshot builder:
all five tables are rebuilt from scratch from the given record lists; exact
entries are keyed by the lower-cased ARN, pattern entries by the literal
pattern, accounts are a set. -/
def saveMap (userMappings userArnLikeMappings : List UserMapping)
    (roleMappings roleArnLikeMappings : List RoleMapping)
    (awsAccounts : List String) : MapStore :=
  { users := userMappings.foldl (fun t u => mapInsert (lowerStr u.userARN) u t) []
    userArnLikes := userArnLikeMappings.foldl (fun t u => mapInsert u.userARNLike u t) []
    roles := roleMappings.foldl (fun t r => mapInsert (lowerStr r.roleARN) r t) []
    roleArnLikes := roleArnLikeMappings.foldl (fun t r => mapInsert r.roleARNLike r t) []
    awsAccounts := awsAccounts }

/-- The Go zero value `config.UserMapping{}`. -/
def emptyUserMapping : UserMapping := ⟨"", "", "", []⟩

/-- The Go zero value `config.RoleMapping{}`. -/
def emptyRoleMapping : RoleMapping := ⟨"", "", "", []⟩

/-- The Go pair `(config.UserMapping, error)` returned by the store's user
lookups. -/
abbrev UserLookupResult := UserMapping × Option Err

/-- The Go pair `(config.RoleMapping, error)` returned by the store's role
lookups. -/
abbrev RoleLookupResult := RoleMapping × Option Err

/-- `MapStore.UserMapping` (configmap.go:284–292): exact lookup, returning
the Go pair `(value, error)`. -/
def MapStore.UserMapping (ms : MapStore) (arn : String) : UserLookupResult :=
  match lookupKey arn ms.users with
  | some user => (user, none)
  | none => (emptyUserMapping, some .userNotFound)

/-- `MapStore.RoleMapping` (configmap.go:311–319). -/
def MapStore.RoleMapping (ms : MapStore) (arn : String) : RoleLookupResult :=
  match lookupKey arn ms.roles with
  | some role => (role, none)
  | none => (emptyRoleMapping, some .roleNotFound)

/-- The scan inside `MapStore.UserArnLikeMapping` (configmap.go:294–309): a
pattern-evaluation error aborts the scan and is returned; a match returns the
entry; exhaustion is the typed miss. -/
def userArnLikeScan (arn : String) : List (String × UserMapping) → UserLookupResult
  | [] => (emptyUserMapping, some .userARNLikeNotMatched)
  | (_, userArnLike) :: rest =>
    match ArnLike arn userArnLike.userARNLike with
    | .error e => (emptyUserMapping, some (.arnLike e))
    | .ok true => (userArnLike, none)
    | .ok false => userArnLikeScan arn rest

/-- `MapStore.UserArnLikeMapping` (configmap.go:294–309). -/
def MapStore.UserArnLikeMapping (ms : MapStore) (arn : String) : UserLookupResult :=
  userArnLikeScan arn ms.userArnLikes

/-- The scan inside `MapStore.RoleArnLikeMapping` (configmap.go:321–336). -/
def roleArnLikeScan (arn : String) : List (String × RoleMapping) → RoleLookupResult
  | [] => (emptyRoleMapping, some .roleARNLikeNotMatched)
  | (_, roleArnLike) :: rest =>
    match ArnLike arn roleArnLike.roleARNLike with
    | .error e => (emptyRoleMapping, some (.arnLike e))
    | .ok true => (roleArnLike, none)
    | .ok false => roleArnLikeScan arn rest

/-- `MapStore.RoleArnLikeMapping` (configmap.go:321–336). -/
def MapStore.RoleArnLikeMapping (ms : MapStore) (arn : String) : RoleLookupResult :=
  roleArnLikeScan arn ms.roleArnLikes

/-- `MapStore.AWSAccount` (configmap.go:338–343). -/
def MapStore.AWSAccount (ms : MapStore) (id : String) : Bool :=
  ms.awsAccounts.contains id

/-! ### Live mapper: `pkg/mapper/configmap/mapper.go` -/

/-- `ConfigMapMapper.Map` (mapper.go:34–75): lower-case the input, then try
the four store lookups in order — exact role, exact user, role pattern, user
pattern.  Any lookup error (typed miss or pattern-evaluation error alike)
falls through to the next stage; if all four stages fail the result is
`ErrNotMapped`. -/
def ConfigMapMapper.Map (ms : MapStore) (arnIn : String) : Except Err IdentityMapping :=
  let canonicalARN := lowerStr arnIn
  match ms.RoleMapping canonicalARN with
  | (rm, none) => .ok ⟨canonicalARN, rm.username, rm.groups⟩
  | (_, some _) =>
  match ms.UserMapping canonicalARN with
  | (um, none) => .ok ⟨canonicalARN, um.username, um.groups⟩
  | (_, some _) =>
  match ms.RoleArnLikeMapping canonicalARN with
  | (ralm, none) => .ok ⟨canonicalARN, ralm.username, ralm.groups⟩
  | (_, some _) =>
  match ms.UserArnLikeMapping canonicalARN with
  | (ualm, none) => .ok ⟨canonicalARN, ualm.username, ualm.groups⟩
  | (_, some _) => .error .notMapped

/-- `ConfigMapMapper.IsAccountAllowed` (mapper.go:77–79). -/
def ConfigMapMapper.IsAccountAllowed (ms : MapStore) (accountID : String) : Bool :=
  ms.AWSAccount accountID

/-! ### Document codec: `ParseMap` / `EncodeMap` (configmap.go:121–238)

The Go functions read and write the three text fields of the `aws-auth`
configmap through YAML/JSON (de)serialization.  The (de)serializer is an
external library; it is abstracted here by letting a present field hold the
decoded record list directly, so `ConfigMapData` models a
`map[string]string` document with optional `mapUsers` / `mapRoles` /
`mapAccounts` keys. -/

/-- The `aws-auth` document: three optional fields. -/
structure ConfigMapData where
  mapUsers : Option (List UserMapping)
  mapRoles : Option (List RoleMapping)
  mapAccounts : Option (List String)
deriving DecidableEq, Repr

/-- The six results of `ParseMap`, with the aggregate error as its list of
causes (`ErrParsingMap.errors`); the Go `error` is nil iff `errs = []`. -/
structure ParseResult where
  userMappings : List UserMapping
  userArnLikeMappings : List UserMapping
  roleMappings : List RoleMapping
  roleArnLikeMappings : List RoleMapping
  awsAccounts : List String
  errs : List String
deriving DecidableEq, Repr

/-- One iteration of the user loop of `ParseMap` (configmap.go:136–155),
accumulating `(userMappings, userArnLikeMappings, errs)`.  Faithfully to the
source, a record whose `userarnLike` field is set is appended to the
ARN-like result list even when its pattern fails validation (the validation
failure only contributes an error cause). -/
def parseUserRecord (acc : List UserMapping × List UserMapping × List String)
    (userMapping : UserMapping) : List UserMapping × List UserMapping × List String :=
  let (userMappings, userArnLikeMappings, errs) := acc
  if userMapping.userARN = "" ∧ userMapping.userARNLike = "" then
    (userMappings, userArnLikeMappings, errs ++ ["One of userarn or userarnLike must be supplied"])
  else if userMapping.userARN ≠ "" ∧ userMapping.userARNLike ≠ "" then
    (userMappings, userArnLikeMappings, errs ++ ["Only one of userarn or userarnLike can be supplied"])
  else if userMapping.userARN ≠ "" then
    (userMappings ++ [userMapping], userArnLikeMappings, errs)
  else
    let errs' :=
      match ArnLike userMapping.userARNLike "arn:*:iam:*:*:user/*" with
      | .error e => errs ++ [e]
      | .ok false =>
        errs ++ ["UserARNLike '" ++ userMapping.userARNLike ++ "' did not match an ARN for an IAM User"]
      | .ok true => errs
    (userMappings, userArnLikeMappings ++ [userMapping], errs')

/-- One iteration of the role loop of `ParseMap` (configmap.go:172–191). -/
def parseRoleRecord (acc : List RoleMapping × List RoleMapping × List String)
    (roleMapping : RoleMapping) : List RoleMapping × List RoleMapping × List String :=
  let (roleMappings, roleArnLikeMappings, errs) := acc
  if roleMapping.roleARN = "" ∧ roleMapping.roleARNLike = "" then
    (roleMappings, roleArnLikeMappings, errs ++ ["One of rolearn or rolearnLike must be supplied"])
  else if roleMapping.roleARN ≠ "" ∧ roleMapping.roleARNLike ≠ "" then
    (roleMappings, roleArnLikeMappings, errs ++ ["Only one of rolearn or rolearnLike can be supplied"])
  else if roleMapping.roleARN ≠ "" then
    (roleMappings ++ [roleMapping], roleArnLikeMappings, errs)
  else
    let errs' :=
      match ArnLike roleMapping.roleARNLike "arn:*:iam:*:*:role/*" with
      | .error e => errs ++ [e]
      | .ok false =>
        errs ++ ["RoleARNLike '" ++ roleMapping.roleARNLike ++ "' did not match an ARN for an IAM Role"]
      | .ok true => errs
    (roleMappings, roleArnLikeMappings ++ [roleMapping], errs')

/-- `ParseMap` (configmap.go:121–208): validate every record of the present
fields, collecting error causes without stopping; an absent field is not an
error and contributes empty lists. -/
def ParseMap (m : ConfigMapData) : ParseResult :=
  let (userMappings, userArnLikeMappings, errsU) :=
    match m.mapUsers with
    | none => ([], [], [])
    | some rawUserMappings => rawUserMappings.foldl parseUserRecord ([], [], [])
  let (roleMappings, roleArnLikeMappings, errsR) :=
    match m.mapRoles with
    | none => ([], [], [])
    | some rawRoleMappings => rawRoleMappings.foldl parseRoleRecord ([], [], [])
  let awsAccounts := (m.mapAccounts).getD []
  ⟨userMappings, userArnLikeMappings, roleMappings, roleArnLikeMappings,
    awsAccounts, errsU ++ errsR⟩

/-- `EncodeMap` (configmap.go:210–238): write each non-empty list into its
field; an empty list leaves its field absent.  (Marshalling of these record
types cannot fail, so the Go error return is always nil.) -/
def EncodeMap (userMappings : List UserMapping) (roleMappings : List RoleMapping)
    (awsAccounts : List String) : ConfigMapData :=
  { mapUsers := if userMappings.length > 0 then some userMappings else none
    mapRoles := if roleMappings.length > 0 then some roleMappings else none
    mapAccounts := if awsAccounts.length > 0 then some awsAccounts else none }

/-! ### Watch-event processing (configmap.go:58–111) -/

/-- A watch event as consumed by the `Streaming` phase of
`startLoadConfigMap`; `added`/`modified` carry the configmap name and body. -/
inductive WatchEvent where
  | errorEvent
  | deleted
  | added (name : String) (data : ConfigMapData)
  | modified (name : String) (data : ConfigMapData)
deriving DecidableEq, Repr

/-- The body of the event loop of `startLoadConfigMap` (configmap.go:76–106)
applied to one event: a delete replaces the store with all-empty tables; an
add/modify for the `aws-auth` configmap parses the body and saves whatever
parsed (even when the parse reported errors); everything else leaves the
store unchanged. -/
def processEvent (ms : MapStore) (ev : WatchEvent) : MapStore :=
  match ev with
  | .errorEvent => ms
  | .deleted => saveMap [] [] [] [] []
  | .added name data | .modified name data =>
    if name ≠ "aws-auth" then ms
    else
      let r := ParseMap data
      saveMap r.userMappings r.userArnLikeMappings r.roleMappings r.roleArnLikeMappings
        r.awsAccounts

/-! ### Optimistic update client: `pkg/mapper/configmap/client/client.go`

`client.add` (client.go:67–131) runs a read–modify–write attempt inside
`retry.RetryOnConflict`; conflicts can only arise from the external store's
conditional update, which always succeeds in this pure model, so a single
attempt is modelled.  The result records the document passed to `updateMap`
(`none` when no write was attempted) together with the error returned.

The `arnLikeMapping` parameter of `client.add` (reachable only through the
unexported `AddARNLikeMapping`) is out of scope here; `clientAdd` covers the
`AddRole`/`AddUser` paths.  Note the client destructures `ParseMap` into the
exact user/role lists, the account list and the error, and re-encodes only
those — the duplicate checks consult only the exact lists. -/

/-- One `client.add` attempt on document `doc`. -/
def clientAdd (doc : ConfigMapData) (role : Option RoleMapping) (user : Option UserMapping) :
    Option ConfigMapData × Option String :=
  if role = none ∧ user = none then (none, some "empty role/user")
  else
    let r := ParseMap doc
    if r.errs ≠ [] then (none, some "failed to parse configmap")
    else
      let dupRole := match role with
        | some ro => r.roleMappings.any (fun rm => rm.roleARN = ro.roleARN)
        | none => false
      if dupRole then (none, some "cannot add duplicate role ARN")
      else
        let roleMappings := match role with
          | some ro => r.roleMappings ++ [ro]
          | none => r.roleMappings
        let dupUser := match user with
          | some u => r.userMappings.any (fun um => um.userARN = u.userARN)
          | none => false
        if dupUser then (none, some "cannot add duplicate user ARN")
        else
          let userMappings := match user with
            | some u => r.userMappings ++ [u]
            | none => r.userMappings
          (some (EncodeMap userMappings roleMappings r.awsAccounts), none)

/-- `client.AddRole` (client.go:46–51) on a non-nil role. -/
def AddRole (doc : ConfigMapData) (role : RoleMapping) : Option ConfigMapData × Option String :=
  clientAdd doc (some role) none

/-- `client.AddUser` (client.go:53–58) on a non-nil user. -/
def AddUser (doc : ConfigMapData) (user : UserMapping) : Option ConfigMapData × Option String :=
  clientAdd doc none (some user)

/-! ### Interleaving semantics for the store's lock discipline

`saveMap` (configmap.go:240–270) takes the write lock, clears the five
tables, refills them, and releases the lock on return.  To analyse what a
concurrent reader can observe, the body is exploded into its primitive
mutations (`saveMapBody`, one `WriterStep` per Go statement or loop
iteration, bracketed by `acquire`/`release`), and `Exec` enumerates the
interleavings of the writer's steps with read observations; under the
`RWMutex` a reader's `RLock` cannot be held while the writer holds the write
lock, so a read observation is only enabled while the lock is free. -/

/-- A primitive step of the single writer. -/
inductive WriterStep where
  | acquire
  | release
  | mutate (f : MapStore → MapStore)

/-- Effect of one writer step on the store and the write-lock flag. -/
def applyStep : MapStore × Bool → WriterStep → MapStore × Bool
  | (s, _), .acquire => (s, true)
  | (s, _), .release => (s, false)
  | (s, l), .mutate f => (f s, l)

/-- Run a writer program to completion without interference. -/
def run (c : MapStore × Bool) (p : List WriterStep) : MapStore × Bool :=
  p.foldl applyStep c

/-- The mutations of `saveMap`'s critical section, one per Go statement or
loop iteration: clear the five tables, then refill each in turn. -/
def saveMapBody (userMappings userArnLikeMappings : List UserMapping)
    (roleMappings roleArnLikeMappings : List RoleMapping)
    (awsAccounts : List String) : List WriterStep :=
  [.mutate fun s => { s with users := [] },
   .mutate fun s => { s with userArnLikes := [] },
   .mutate fun s => { s with roles := [] },
   .mutate fun s => { s with roleArnLikes := [] },
   .mutate fun s => { s with awsAccounts := [] }]
  ++ userMappings.map (fun x =>
      .mutate fun s => { s with users := mapInsert (lowerStr x.userARN) x s.users })
  ++ userArnLikeMappings.map (fun x =>
      .mutate fun s => { s with userArnLikes := mapInsert x.userARNLike x s.userArnLikes })
  ++ roleMappings.map (fun x =>
      .mutate fun s => { s with roles := mapInsert (lowerStr x.roleARN) x s.roles })
  ++ roleArnLikeMappings.map (fun x =>
      .mutate fun s => { s with roleArnLikes := mapInsert x.roleARNLike x s.roleArnLikes })
  ++ awsAccounts.map (fun x =>
      .mutate fun s => { s with awsAccounts := s.awsAccounts ++ [x] })

/-- The whole of `saveMap` as a writer program: lock, mutate, unlock. -/
def saveMapProgram (u ual : List UserMapping) (r ral : List RoleMapping)
    (a : List String) : List WriterStep :=
  .acquire :: (saveMapBody u ual r ral a ++ [.release])

/-- Interleaved execution: the writer may take its next step; a reader may
observe the current store whenever the write lock is free.  `obs` collects
the observed snapshots. -/
inductive Exec : MapStore × Bool → List WriterStep → List MapStore → Prop where
  | nil (c : MapStore × Bool) : Exec c [] []
  | wstep {c : MapStore × Bool} {w : WriterStep} {p : List WriterStep} {obs : List MapStore}
      (h : Exec (applyStep c w) p obs) : Exec c (w :: p) obs
  | readObs {c : MapStore × Bool} {p : List WriterStep} {obs : List MapStore}
      (hfree : c.2 = false) (h : Exec c p obs) : Exec c p (c.1 :: obs)

/-- The program `p` consists of mutations only. -/
def onlyMutates (p : List WriterStep) : Prop :=
  ∀ w ∈ p, ∃ f, w = WriterStep.mutate f

/-! ### Derived predicates used in the statements below -/

/-- The record passes the role checks of `NewFileMapper`'s switch: exactly
one identifying field, a canonicalizable exact ARN, a role-shaped pattern. -/
def roleMappingOk (m : RoleMapping) : Bool :=
  if m.roleARN = "" ∧ m.roleARNLike = "" then false
  else if m.roleARN ≠ "" ∧ m.roleARNLike ≠ "" then false
  else if m.roleARN ≠ "" then (Canonicalize (lowerStr m.roleARN)).isOk
  else
    match ArnLike m.roleARNLike "arn:*:iam:*:*:role/*" with
    | .ok true => true
    | _ => false

/-- The record passes the user checks of `NewFileMapper`'s switch. -/
def userMappingOk (m : UserMapping) : Bool :=
  if m.userARN = "" ∧ m.userARNLike = "" then false
  else if m.userARN ≠ "" ∧ m.userARNLike ≠ "" then false
  else if m.userARN ≠ "" then (Canonicalize (lowerStr m.userARN)).isOk
  else
    match ArnLike m.userARNLike "arn:*:iam:*:*:user/*" with
    | .ok true => true
    | _ => false

/-- Exactly the exact-ARN identifying field is populated. -/
def isExactUser (u : UserMapping) : Bool := u.userARN ≠ "" ∧ u.userARNLike = ""

/-- Exactly the ARN-like identifying field is populated. -/
def isALikeUser (u : UserMapping) : Bool := u.userARN = "" ∧ u.userARNLike ≠ ""

/-- Exactly the exact-ARN identifying field is populated. -/
def isExactRole (r : RoleMapping) : Bool := r.roleARN ≠ "" ∧ r.roleARNLike = ""

/-- Exactly the ARN-like identifying field is populated. -/
def isALikeRole (r : RoleMapping) : Bool := r.roleARN = "" ∧ r.roleARNLike ≠ ""

/-- The error causes the user loop of `ParseMap` contributes for one record. -/
def userRecordErrs (u : UserMapping) : List String :=
  if u.userARN = "" ∧ u.userARNLike = "" then
    ["One of userarn or userarnLike must be supplied"]
  else if u.userARN ≠ "" ∧ u.userARNLike ≠ "" then
    ["Only one of userarn or userarnLike can be supplied"]
  else if u.userARN ≠ "" then []
  else
    match ArnLike u.userARNLike "arn:*:iam:*:*:user/*" with
    | .error e => [e]
    | .ok false => ["UserARNLike '" ++ u.userARNLike ++ "' did not match an ARN for an IAM User"]
    | .ok true => []

/-- The error causes the role loop of `ParseMap` contributes for one record. -/
def roleRecordErrs (r : RoleMapping) : List String :=
  if r.roleARN = "" ∧ r.roleARNLike = "" then
    ["One of rolearn or rolearnLike must be supplied"]
  else if r.roleARN ≠ "" ∧ r.roleARNLike ≠ "" then
    ["Only one of rolearn or rolearnLike can be supplied"]
  else if r.roleARN ≠ "" then []
  else
    match ArnLike r.roleARNLike "arn:*:iam:*:*:role/*" with
    | .error e => [e]
    | .ok false => ["RoleARNLike '" ++ r.roleARNLike ++ "' did not match an ARN for an IAM Role"]
    | .ok true => []

/-- The key under which `NewFileMapper` stores an exact role entry in
`lowercaseRoleMap`, when the entry is an exact entry and canonicalizes. -/
def roleTableKey (m : RoleMapping) : Option String :=
  if m.roleARN ≠ "" then (Canonicalize (lowerStr m.roleARN)).toOption else none

/-- The key under which `NewFileMapper` stores a pattern role entry in
`roleArnLikeMap`. -/
def rolePatternKey (m : RoleMapping) : Option String :=
  if m.roleARN = "" then some m.roleARNLike else none

/-- The key under which `NewFileMapper` stores an exact user entry. -/
def userTableKey (m : UserMapping) : Option String :=
  if m.userARN ≠ "" then (Canonicalize (lowerStr m.userARN)).toOption else none

/-- The key under which `NewFileMapper` stores a pattern user entry. -/
def userPatternKey (m : UserMapping) : Option String :=
  if m.userARN = "" then some m.userARNLike else none

/-- Decidable equality for `Except`, so concrete runs reduce by `decide`. -/
instance {ε α : Type} [DecidableEq ε] [DecidableEq α] : DecidableEq (Except ε α) := fun x y =>
  match x, y with
  | .ok a, .ok b =>
    if h : a = b then .isTrue (by rw [h]) else .isFalse (by intro hh; cases hh; exact h rfl)
  | .error a, .error b =>
    if h : a = b then .isTrue (by rw [h]) else .isFalse (by intro hh; cases hh; exact h rfl)
  | .ok _, .error _ => .isFalse (by intro hh; cases hh)
  | .error _, .ok _ => .isFalse (by intro hh; cases hh)

/-! ### Sanity checks against the repository's test data
(`pkg/mapper/file/mapper_test.go` and spec §8 scenarios 1–3) -/

/-- The test configuration of `mapper_test.go`. -/
def testConfig : Config :=
  { roleMappings :=
      [⟨"arn:aws:iam::0123456789012:role/test-role", "", "roland", ["system:masters"]⟩,
       ⟨"", "arn:aws:iam::0123456789012:role/cookie-cutt*", "cookie-cutter", ["system:masters"]⟩]
    userMappings :=
      [⟨"arn:aws:iam::0123456789012:user/donald", "", "donald", ["system:masters"]⟩,
       ⟨"", "arn:aws:iam::0123456789012:user/shrey*", "shreyas", ["system:masters"]⟩]
    autoMappedAWSAccounts := ["000000000000"] }

/-! ## Theorems -/

theorem toNat_toLowerChar_of_upper (c : Char) (h : 65 ≤ c.toNat ∧ c.toNat ≤ 90) :
    (toLowerChar c).toNat = c.toNat + 32 := by
  unfold toLowerChar
  rw [dif_pos h]
  rfl

theorem toLowerChar_eq_of_not_upper (c : Char) (h : ¬(65 ≤ c.toNat ∧ c.toNat ≤ 90)) :
    toLowerChar c = c := by
  unfold toLowerChar
  rw [dif_neg h]

theorem isUpperA_toLowerChar (c : Char) : isUpperA (toLowerChar c) = false := by
  by_cases h : 65 ≤ c.toNat ∧ c.toNat ≤ 90
  · have := toNat_toLowerChar_of_upper c h
    simp only [isUpperA, decide_eq_false_iff_not]
    omega
  · rw [toLowerChar_eq_of_not_upper c h]
    simp only [isUpperA, decide_eq_false_iff_not]
    exact h

theorem toLowerChar_idem (c : Char) : toLowerChar (toLowerChar c) = toLowerChar c := by
  have h := isUpperA_toLowerChar c
  simp only [isUpperA, decide_eq_false_iff_not] at h
  exact toLowerChar_eq_of_not_upper _ h

theorem lowerStr_idem (s : String) : lowerStr (lowerStr s) = lowerStr s := by
  simp [lowerStr, Function.comp_def, toLowerChar_idem]

theorem not_upper_mem_lowerStr (s : String) (c : Char) (hc : c ∈ (lowerStr s).data) :
    isUpperA c = false := by
  simp only [lowerStr, List.mem_map] at hc
  obtain ⟨d, _, rfl⟩ := hc
  exact isUpperA_toLowerChar d

example : globMatch "arn:*:iam:*:*:role/*" "arn:aws:iam::0123456789012:role/cookie-cutt*" = true := by decide

example : globMatch "arn:aws:iam::1:role/a?c" "arn:aws:iam::1:role/abc" = true := by decide

example : globMatch "arn:aws:iam::1:role/a?c" "arn:aws:iam::1:role/ac" = false := by decide

example : globMatch "a*C" "axyc" = false := by decide

/-- In a successful glob match every non-wildcard pattern character is matched
against an equal subject character; hence if no subject character is an ASCII
upper-case letter, no pattern character is either (`*` and `?` are not
upper-case letters themselves). -/
theorem globAux_no_upper (n : Nat) (p s : List Char) (h : globAux n p s = true)
    (hs : ∀ c ∈ s, isUpperA c = false) : ∀ c ∈ p, isUpperA c = false := by
  induction n generalizing p s with
  | zero => simp [globAux] at h
  | succ n ih =>
    match p, s with
    | [], _ => intro c hc; simp at hc
    | q :: ps, [] =>
      simp only [globAux] at h
      by_cases hq : q = '*'
      · rw [if_pos hq] at h
        intro c hc
        rcases List.mem_cons.mp hc with rfl | hc
        · rw [hq]; decide
        · exact ih ps [] h (by intro c hc; simp at hc) c hc
      · rw [if_neg hq] at h
        exact absurd h (by decide)
    | q :: ps, c0 :: cs =>
      simp only [globAux] at h
      by_cases hq : q = '*'
      · rw [if_pos hq] at h
        intro c hc
        rcases List.mem_cons.mp hc with rfl | hc
        · rw [hq]; decide
        · rcases Bool.or_eq_true_iff.mp h with h1 | h2
          · exact ih ps (c0 :: cs) h1 hs c hc
          · exact ih (q :: ps) cs h2 (fun d hd => hs d (List.mem_cons_of_mem _ hd))
              c (List.mem_cons_of_mem _ hc)
      · rw [if_neg hq] at h
        by_cases hq2 : q = '?'
        · rw [if_pos hq2] at h
          intro c hc
          rcases List.mem_cons.mp hc with rfl | hc
          · rw [hq2]; decide
          · exact ih ps cs h (fun d hd => hs d (List.mem_cons_of_mem _ hd)) c hc
        · rw [if_neg hq2] at h
          rcases Bool.and_eq_true_iff.mp h with ⟨heq, hrest⟩
          intro c hc
          rcases List.mem_cons.mp hc with rfl | hc
          · have : c = c0 := by simpa using heq
            rw [this]
            exact hs c0 (List.mem_cons_self _ _)
          · exact ih ps cs hrest (fun d hd => hs d (List.mem_cons_of_mem _ hd)) c hc

/-- A pattern containing an ASCII upper-case literal never glob-matches a
subject free of upper-case characters. -/
theorem globMatch_upper_pattern_false (p s : String) (c : Char) (hc : c ∈ p.data)
    (hup : isUpperA c = true) (hs : ∀ d ∈ s.data, isUpperA d = false) :
    globMatch p s = false := by
  by_contra h
  have h' : globMatch p s = true := by
    cases hgm : globMatch p s
    · exact absurd hgm h
    · rfl
  have := globAux_no_upper _ _ _ h' hs c hc
  rw [hup] at this
  cases this

example : arnShaped "arn:aws:iam::0123456789012:role/test-role" = true := by decide

example : arnShaped "arn:*:iam:*:*:role/*" = true := by decide

example : arnShaped "foo" = false := by decide

theorem lookupKey_mapInsert_self {α : Type} (k : String) (v : α) (l : List (String × α)) :
    lookupKey k (mapInsert k v l) = some v := by
  induction l with
  | nil => simp [mapInsert, lookupKey]
  | cons kv rest ih =>
    obtain ⟨k', v'⟩ := kv
    by_cases h : k' = k
    · simp [mapInsert, h, lookupKey]
    · simp [mapInsert, h, lookupKey, ih]

theorem lookupKey_mapInsert_ne {α : Type} (k k0 : String) (v : α) (l : List (String × α))
    (h : k0 ≠ k) : lookupKey k (mapInsert k0 v l) = lookupKey k l := by
  induction l with
  | nil => simp [mapInsert, lookupKey, h]
  | cons kv rest ih =>
    obtain ⟨k', v'⟩ := kv
    by_cases h' : k' = k0
    · simp [mapInsert, h', lookupKey, h]
    · by_cases h'' : k' = k
      · simp only [mapInsert, if_neg h', lookupKey, if_pos h'']
      · simp [mapInsert, h', lookupKey, h'', ih]

theorem exec_nil_obs (c : MapStore × Bool) (p : List WriterStep) (obs : List MapStore)
    (h : Exec c p obs) (hp : p = []) : ∀ o ∈ obs, o = c.1 := by
  induction h with
  | nil => intro o ho; simp at ho
  | wstep h ih => cases hp
  | readObs hfree h ih =>
    intro o ho
    rcases List.mem_cons.mp ho with rfl | ho
    · rfl
    · exact ih hp o ho

theorem exec_locked_obs (c : MapStore × Bool) (p : List WriterStep) (obs : List MapStore)
    (h : Exec c p obs) :
    ∀ body s, onlyMutates body → c = (s, true) → p = body ++ [.release] →
      ∀ o ∈ obs, o = (run (s, true) body).1 := by
  induction h with
  | nil =>
    intro body s hm hc hp o ho
    simp at ho
  | @wstep c w p obs h ih =>
    intro body s hm hc hp
    match body, hp with
    | [], hp =>
      simp only [List.nil_append, List.cons.injEq] at hp
      obtain ⟨rfl, rfl⟩ := hp
      subst hc
      intro o ho
      exact exec_nil_obs _ _ _ h rfl o ho
    | b :: body', hp =>
      simp only [List.cons_append, List.cons.injEq] at hp
      obtain ⟨rfl, rfl⟩ := hp
      obtain ⟨f, rfl⟩ := hm w (List.mem_cons_self _ _)
      subst hc
      intro o ho
      have := ih body' (f s) (fun w hw => hm w (List.mem_cons_of_mem _ hw)) rfl rfl o ho
      simpa [run, List.foldl_cons, applyStep] using this
  | readObs hfree h ih =>
    intro body s hm hc hp
    subst hc
    simp at hfree

theorem exec_acquire_obs (c : MapStore × Bool) (p : List WriterStep) (obs : List MapStore)
    (h : Exec c p obs) :
    ∀ body s, onlyMutates body → c = (s, false) → p = .acquire :: (body ++ [.release]) →
      ∀ o ∈ obs, o = s ∨ o = (run (s, true) body).1 := by
  induction h with
  | nil =>
    intro body s hm hc hp o ho
    simp at ho
  | @wstep c w p obs h ih =>
    intro body s hm hc hp
    simp only [List.cons.injEq] at hp
    obtain ⟨rfl, rfl⟩ := hp
    subst hc
    intro o ho
    exact Or.inr (exec_locked_obs _ _ _ h body s hm rfl rfl o ho)
  | readObs hfree h ih =>
    intro body s hm hc hp
    subst hc
    intro o ho
    rcases List.mem_cons.mp ho with rfl | ho
    · exact Or.inl rfl
    · exact ih body s hm rfl hp o ho

theorem foldl_snoc_eq {α : Type} (a : List α) (l : List α) :
    a.foldl (fun acc x => acc ++ [x]) l = l ++ a := by
  induction a generalizing l with
  | nil => simp
  | cons x xs ih => simp [List.foldl_cons, ih]

theorem run_mutate_map {α : Type} (g : α → (MapStore → MapStore)) (l : List α)
    (c : MapStore × Bool) :
    run c (l.map (fun x => WriterStep.mutate (g x))) =
      (l.foldl (fun s x => g x s) c.1, c.2) := by
  induction l generalizing c with
  | nil => simp [run]
  | cons x xs ih =>
    obtain ⟨s, lk⟩ := c
    simp only [List.map_cons, run, List.foldl_cons, applyStep]
    exact ih (g x s, lk)

theorem foldl_users_field (u : List UserMapping) (s : MapStore) :
    u.foldl (fun t x => { t with users := mapInsert (lowerStr x.userARN) x t.users }) s =
      { s with users := u.foldl (fun m x => mapInsert (lowerStr x.userARN) x m) s.users } := by
  induction u generalizing s with
  | nil => simp
  | cons x xs ih => simp [List.foldl_cons, ih]

theorem foldl_userArnLikes_field (u : List UserMapping) (s : MapStore) :
    u.foldl (fun t x => { t with userArnLikes := mapInsert x.userARNLike x t.userArnLikes }) s =
      { s with userArnLikes := u.foldl (fun m x => mapInsert x.userARNLike x m) s.userArnLikes } := by
  induction u generalizing s with
  | nil => simp
  | cons x xs ih => simp [List.foldl_cons, ih]

theorem foldl_roles_field (r : List RoleMapping) (s : MapStore) :
    r.foldl (fun t x => { t with roles := mapInsert (lowerStr x.roleARN) x t.roles }) s =
      { s with roles := r.foldl (fun m x => mapInsert (lowerStr x.roleARN) x m) s.roles } := by
  induction r generalizing s with
  | nil => simp
  | cons x xs ih => simp [List.foldl_cons, ih]

theorem foldl_roleArnLikes_field (r : List RoleMapping) (s : MapStore) :
    r.foldl (fun t x => { t with roleArnLikes := mapInsert x.roleARNLike x t.roleArnLikes }) s =
      { s with roleArnLikes := r.foldl (fun m x => mapInsert x.roleARNLike x m) s.roleArnLikes } := by
  induction r generalizing s with
  | nil => simp
  | cons x xs ih => simp [List.foldl_cons, ih]

theorem foldl_awsAccounts_field (a : List String) (s : MapStore) :
    a.foldl (fun t x => { t with awsAccounts := t.awsAccounts ++ [x] }) s =
      { s with awsAccounts := s.awsAccounts ++ a } := by
  induction a generalizing s with
  | nil => simp
  | cons x xs ih => simp [List.foldl_cons, ih]

/-- Running the critical-section body uninterrupted computes exactly the pure
snapshot `saveMap` builds, whatever store it starts from. -/
theorem run_append (c : MapStore × Bool) (p q : List WriterStep) :
    run c (p ++ q) = run (run c p) q :=
  List.foldl_append _ _ _ _

theorem run_saveMapBody (u ual : List UserMapping) (r ral : List RoleMapping)
    (a : List String) (s : MapStore) :
    (run (s, true) (saveMapBody u ual r ral a)).1 = saveMap u ual r ral a := by
  simp only [saveMapBody]
  rw [run_append, run_append, run_append, run_append, run_append]
  have hclear : run (s, true)
      [.mutate fun t => { t with users := [] },
       .mutate fun t => { t with userArnLikes := [] },
       .mutate fun t => { t with roles := [] },
       .mutate fun t => { t with roleArnLikes := [] },
       .mutate fun t => { t with awsAccounts := [] }] =
      (⟨[], [], [], [], []⟩, true) := rfl
  rw [hclear]
  rw [run_mutate_map (fun (x : UserMapping) =>
        fun t => { t with users := mapInsert (lowerStr x.userARN) x t.users }) u]
  rw [run_mutate_map (fun (x : UserMapping) =>
        fun t => { t with userArnLikes := mapInsert x.userARNLike x t.userArnLikes }) ual]
  rw [run_mutate_map (fun (x : RoleMapping) =>
        fun t => { t with roles := mapInsert (lowerStr x.roleARN) x t.roles }) r]
  rw [run_mutate_map (fun (x : RoleMapping) =>
        fun t => { t with roleArnLikes := mapInsert x.roleARNLike x t.roleArnLikes }) ral]
  rw [run_mutate_map (fun (x : String) =>
        fun t => { t with awsAccounts := t.awsAccounts ++ [x] }) a]
  simp only [foldl_users_field, foldl_userArnLikes_field, foldl_roles_field,
    foldl_roleArnLikes_field, foldl_awsAccounts_field]
  simp [saveMap]

example : (NewFileMapper testConfig).isOk = true := by decide

example :
    (NewFileMapper testConfig).toOption.map
      (fun fm => fm.Map "arn:aws:iam::0123456789012:role/test-role") =
      some (.ok ⟨"arn:aws:iam::0123456789012:role/test-role", "roland", ["system:masters"]⟩) := by
  decide

example :
    (NewFileMapper testConfig).toOption.map
      (fun fm => fm.Map "arn:aws:iam::0123456789012:role/cookie-cutter-two") =
      some (.ok ⟨"arn:aws:iam::0123456789012:role/cookie-cutter-two", "cookie-cutter",
        ["system:masters"]⟩) := by
  decide

example :
    (NewFileMapper testConfig).toOption.map (fun fm => fm.IsAccountAllowed "000000000000") =
      some true := by decide

example :
    (NewFileMapper testConfig).toOption.map (fun fm => fm.IsAccountAllowed "111111111111") =
      some false := by decide

/-! ### Characterizing `ParseMap` -/

theorem parseUserRecord_step (acc : List UserMapping × List UserMapping × List String)
    (u : UserMapping) :
    parseUserRecord acc u =
      (acc.1 ++ if isExactUser u then [u] else [],
       acc.2.1 ++ if isALikeUser u then [u] else [],
       acc.2.2 ++ userRecordErrs u) := by
  obtain ⟨us, uals, errs⟩ := acc
  by_cases h1 : u.userARN = "" ∧ u.userARNLike = ""
  · simp [parseUserRecord, userRecordErrs, isExactUser, isALikeUser, h1, h1.1, h1.2]
  · by_cases h2 : u.userARN ≠ "" ∧ u.userARNLike ≠ ""
    · simp [parseUserRecord, userRecordErrs, isExactUser, isALikeUser, h1, h2, h2.1, h2.2]
    · by_cases h3 : u.userARN ≠ ""
      · have h4 : u.userARNLike = "" := by
          by_contra hc
          exact h2 ⟨h3, hc⟩
        simp [parseUserRecord, userRecordErrs, isExactUser, isALikeUser, h1, h2, h3, h4]
      · have h5 : u.userARN = "" := by
          by_contra hc
          exact h3 hc
        have h6 : u.userARNLike ≠ "" := by
          by_contra hc
          exact h1 ⟨h5, hc⟩
        simp only [parseUserRecord, userRecordErrs, isExactUser, isALikeUser,
          if_neg h1, if_neg h2, if_neg h3]
        match harn : ArnLike u.userARNLike "arn:*:iam:*:*:user/*" with
        | .error e => simp [h5, h6]
        | .ok false => simp [h5, h6]
        | .ok true => simp [h5, h6]

theorem parseRoleRecord_step (acc : List RoleMapping × List RoleMapping × List String)
    (r : RoleMapping) :
    parseRoleRecord acc r =
      (acc.1 ++ if isExactRole r then [r] else [],
       acc.2.1 ++ if isALikeRole r then [r] else [],
       acc.2.2 ++ roleRecordErrs r) := by
  obtain ⟨rs, rals, errs⟩ := acc
  by_cases h1 : r.roleARN = "" ∧ r.roleARNLike = ""
  · simp [parseRoleRecord, roleRecordErrs, isExactRole, isALikeRole, h1, h1.1, h1.2]
  · by_cases h2 : r.roleARN ≠ "" ∧ r.roleARNLike ≠ ""
    · simp [parseRoleRecord, roleRecordErrs, isExactRole, isALikeRole, h1, h2, h2.1, h2.2]
    · by_cases h3 : r.roleARN ≠ ""
      · have h4 : r.roleARNLike = "" := by
          by_contra hc
          exact h2 ⟨h3, hc⟩
        simp [parseRoleRecord, roleRecordErrs, isExactRole, isALikeRole, h1, h2, h3, h4]
      · have h5 : r.roleARN = "" := by
          by_contra hc
          exact h3 hc
        have h6 : r.roleARNLike ≠ "" := by
          by_contra hc
          exact h1 ⟨h5, hc⟩
        simp only [parseRoleRecord, roleRecordErrs, isExactRole, isALikeRole,
          if_neg h1, if_neg h2, if_neg h3]
        match harn : ArnLike r.roleARNLike "arn:*:iam:*:*:role/*" with
        | .error e => simp [h5, h6]
        | .ok false => simp [h5, h6]
        | .ok true => simp [h5, h6]

theorem foldl_parseUserRecord (l : List UserMapping)
    (acc : List UserMapping × List UserMapping × List String) :
    l.foldl parseUserRecord acc =
      (acc.1 ++ l.filter isExactUser, acc.2.1 ++ l.filter isALikeUser,
       acc.2.2 ++ (l.map userRecordErrs).flatten) := by
  induction l generalizing acc with
  | nil => simp
  | cons u rest ih =>
    rw [List.foldl_cons, parseUserRecord_step, ih]
    obtain ⟨us, uals, errs⟩ := acc
    by_cases h1 : isExactUser u
    · have h2 : isALikeUser u = false := by
        simp only [isExactUser, decide_eq_true_eq] at h1
        simp [isALikeUser, h1.1]
      simp [List.filter_cons, h1, h2, List.append_assoc]
    · by_cases h2 : isALikeUser u
      · simp [List.filter_cons, h1, h2, List.append_assoc]
      · simp [List.filter_cons, h1, h2, List.append_assoc]

theorem foldl_parseRoleRecord (l : List RoleMapping)
    (acc : List RoleMapping × List RoleMapping × List String) :
    l.foldl parseRoleRecord acc =
      (acc.1 ++ l.filter isExactRole, acc.2.1 ++ l.filter isALikeRole,
       acc.2.2 ++ (l.map roleRecordErrs).flatten) := by
  induction l generalizing acc with
  | nil => simp
  | cons r rest ih =>
    rw [List.foldl_cons, parseRoleRecord_step, ih]
    obtain ⟨rs, rals, errs⟩ := acc
    by_cases h1 : isExactRole r
    · have h2 : isALikeRole r = false := by
        simp only [isExactRole, decide_eq_true_eq] at h1
        simp [isALikeRole, h1.1]
      simp [List.filter_cons, h1, h2, List.append_assoc]
    · by_cases h2 : isALikeRole r
      · simp [List.filter_cons, h1, h2, List.append_assoc]
      · simp [List.filter_cons, h1, h2, List.append_assoc]

theorem ParseMap_characterization (d : ConfigMapData) :
    ParseMap d =
      ⟨(d.mapUsers.getD []).filter isExactUser,
       (d.mapUsers.getD []).filter isALikeUser,
       (d.mapRoles.getD []).filter isExactRole,
       (d.mapRoles.getD []).filter isALikeRole,
       d.mapAccounts.getD [],
       ((d.mapUsers.getD []).map userRecordErrs).flatten ++
         ((d.mapRoles.getD []).map roleRecordErrs).flatten⟩ := by
  obtain ⟨mu, mr, ma⟩ := d
  cases mu <;> cases mr <;>
    simp [ParseMap, foldl_parseUserRecord, foldl_parseRoleRecord]

/-- C2 (counterexample): the claim says the result sets contain exactly the
records that parsed and validated successfully.  But a role record whose
`rolearnLike` pattern fails validation (here the non-ARN pattern `foo`) is
appended to the ARN-like result set even though it contributes a cause to the
aggregate error, so the result set contains a record that did not validate. -/
theorem C2_parse_counterexample :
    (ParseMap ⟨none, some [⟨"", "foo", "x", []⟩], none⟩).roleArnLikeMappings =
        [⟨"", "foo", "x", []⟩] ∧
      (ParseMap ⟨none, some [⟨"", "foo", "x", []⟩], none⟩).errs ≠ [] := by
  decide

/-- C2 (amended): `ParseMap` processes every record; a record with zero or
two identifying fields contributes a cause and is excluded from the result
sets; an ARN-like record with an invalid pattern contributes a cause but is
still included in the ARN-like result set; the exact result sets are exactly
the records with only the exact field set, the ARN-like result sets exactly
the records with only the pattern field set; the aggregate error is non-empty
iff some record is invalid.  In particular, for a role list with one
well-formed entry and one entry with both ARN fields populated, the
well-formed entry is in the result set and the aggregate error is non-nil. -/
theorem C2_parse_partial (d : ConfigMapData) :
    (ParseMap d).userMappings = (d.mapUsers.getD []).filter isExactUser ∧
    (ParseMap d).userArnLikeMappings = (d.mapUsers.getD []).filter isALikeUser ∧
    (ParseMap d).roleMappings = (d.mapRoles.getD []).filter isExactRole ∧
    (ParseMap d).roleArnLikeMappings = (d.mapRoles.getD []).filter isALikeRole ∧
    (ParseMap d).awsAccounts = d.mapAccounts.getD [] ∧
    ((ParseMap d).errs = [] ↔
      (∀ u ∈ d.mapUsers.getD [], userRecordErrs u = []) ∧
      (∀ r ∈ d.mapRoles.getD [], roleRecordErrs r = [])) := by
  rw [ParseMap_characterization]
  refine ⟨rfl, rfl, rfl, rfl, rfl, ?_⟩
  constructor
  · intro h
    rw [List.append_eq_nil] at h
    constructor
    · intro u hu
      have := List.flatten_eq_nil_iff.mp h.1
      exact this _ (List.mem_map_of_mem _ hu)
    · intro r hr
      have := List.flatten_eq_nil_iff.mp h.2
      exact this _ (List.mem_map_of_mem _ hr)
  · rintro ⟨hu, hr⟩
    rw [List.append_eq_nil]
    constructor
    · rw [List.flatten_eq_nil_iff]
      intro l hl
      obtain ⟨u, hu', rfl⟩ := List.mem_map.mp hl
      exact hu u hu'
    · rw [List.flatten_eq_nil_iff]
      intro l hl
      obtain ⟨r, hr', rfl⟩ := List.mem_map.mp hl
      exact hr r hr'

/-- C3: after a `Deleted` watch event is processed, every exact and ARN-like
lookup returns its typed not-found error together with the zero-value record,
and no account is allowed — the store holds all-empty tables, with no stale
hits. -/
theorem C3_delete_resets_store (ms : MapStore) (arn id : String) :
    (processEvent ms .deleted).UserMapping arn = (emptyUserMapping, some .userNotFound) ∧
    (processEvent ms .deleted).RoleMapping arn = (emptyRoleMapping, some .roleNotFound) ∧
    (processEvent ms .deleted).UserArnLikeMapping arn =
      (emptyUserMapping, some .userARNLikeNotMatched) ∧
    (processEvent ms .deleted).RoleArnLikeMapping arn =
      (emptyRoleMapping, some .roleARNLikeNotMatched) ∧
    (processEvent ms .deleted).AWSAccount id = false := by
  refine ⟨rfl, rfl, rfl, rfl, rfl⟩

/-- C7: encoding a record set that contains no ARN-like patterns (every user
and role record carries exactly its exact-ARN field) and re-parsing it
reproduces the record set exactly, with an empty aggregate error. -/
theorem C7_roundtrip (users : List UserMapping) (roles : List RoleMapping)
    (accounts : List String)
    (hu : ∀ u ∈ users, isExactUser u = true) (hr : ∀ r ∈ roles, isExactRole r = true) :
    ParseMap (EncodeMap users roles accounts) = ⟨users, [], roles, [], accounts, []⟩ := by
  rw [ParseMap_characterization]
  have husers : (EncodeMap users roles accounts).mapUsers.getD [] = users := by
    simp only [EncodeMap]
    by_cases h : users.length > 0
    · simp [h]
    · simp only [h, if_false, Option.getD_none]
      cases users with
      | nil => rfl
      | cons x xs => simp at h
  have hroles : (EncodeMap users roles accounts).mapRoles.getD [] = roles := by
    simp only [EncodeMap]
    by_cases h : roles.length > 0
    · simp [h]
    · simp only [h, if_false, Option.getD_none]
      cases roles with
      | nil => rfl
      | cons x xs => simp at h
  have haccts : (EncodeMap users roles accounts).mapAccounts.getD [] = accounts := by
    simp only [EncodeMap]
    by_cases h : accounts.length > 0
    · simp [h]
    · simp only [h, if_false, Option.getD_none]
      cases accounts with
      | nil => rfl
      | cons x xs => simp at h
  rw [husers, hroles, haccts]
  have hfe : users.filter isExactUser = users := List.filter_eq_self.mpr hu
  have hfa : users.filter isALikeUser = [] := by
    rw [List.filter_eq_nil_iff]
    intro u hu'
    have := hu u hu'
    simp only [isExactUser, decide_eq_true_eq] at this
    simp [isALikeUser, this.1]
  have hre : roles.filter isExactRole = roles := List.filter_eq_self.mpr hr
  have hra : roles.filter isALikeRole = [] := by
    rw [List.filter_eq_nil_iff]
    intro r hr'
    have := hr r hr'
    simp only [isExactRole, decide_eq_true_eq] at this
    simp [isALikeRole, this.1]
  have hue : (users.map userRecordErrs).flatten = [] := by
    rw [List.flatten_eq_nil_iff]
    intro l hl
    obtain ⟨u, hu', rfl⟩ := List.mem_map.mp hl
    have := hu u hu'
    simp only [isExactUser, decide_eq_true_eq] at this
    simp [userRecordErrs, this.1, this.2]
  have hrre : (roles.map roleRecordErrs).flatten = [] := by
    rw [List.flatten_eq_nil_iff]
    intro l hl
    obtain ⟨r, hr', rfl⟩ := List.mem_map.mp hl
    have := hr r hr'
    simp only [isExactRole, decide_eq_true_eq] at this
    simp [roleRecordErrs, this.1, this.2]
  rw [hfe, hfa, hre, hra, hue, hrre]
  rfl

/-- C7 witness: the round-trip theorem applied to the exact-only part of the
repository's `TestParseMap` data. -/
theorem C7_roundtrip_witness :
    ParseMap (EncodeMap
        [⟨"arn:aws:iam::123456789101:user/Hello", "", "Hello", ["system:masters"]⟩]
        [⟨"arn:aws:iam::123456789101:role/test-NodeInstanceRole-1VWRHZ3GKZ1T4", "",
          "system:node:{{EC2PrivateDNSName}}", ["system:bootstrappers", "system:nodes"]⟩]
        []) =
      ⟨[⟨"arn:aws:iam::123456789101:user/Hello", "", "Hello", ["system:masters"]⟩], [],
       [⟨"arn:aws:iam::123456789101:role/test-NodeInstanceRole-1VWRHZ3GKZ1T4", "",
         "system:node:{{EC2PrivateDNSName}}", ["system:bootstrappers", "system:nodes"]⟩], [],
       [], []⟩ :=
  C7_roundtrip _ _ _ (by decide) (by decide)

/-- C9: the live `ConfigMapMapper.Map` never surfaces any error other than
`ErrNotMapped` — every store-lookup error, the typed misses and
pattern-evaluation errors alike, silently falls through to the next stage
(second conjunct shows a fall-through past an erroring stage), and a full
fall-through returns `ErrNotMapped`; unlike the static `FileMapper.Map`,
which propagates a pattern-evaluation error from its role-pattern scan to the
caller (third conjunct). -/
theorem C9_map_error_swallowing :
    (∀ (ms : MapStore) (a : String) (e : Err),
        ConfigMapMapper.Map ms a = .error e → e = .notMapped) ∧
    (∀ (ms : MapStore) (a : String) (um : UserMapping) (e1 : Err),
        ms.RoleMapping (lowerStr a) = (emptyRoleMapping, some e1) →
        ms.UserMapping (lowerStr a) = (um, none) →
        ConfigMapMapper.Map ms a = .ok ⟨lowerStr a, um.username, um.groups⟩) ∧
    (∀ (fm : FileMapper) (a : String) (e : String),
        lookupKey (lowerStr a) fm.lowercaseRoleMap = none →
        lookupKey (lowerStr a) fm.lowercaseUserMap = none →
        scanRoleArnLikes (lowerStr a) fm.roleArnLikeMap = .error e →
        FileMapper.Map fm a = .error (.arnLike e)) := by
  refine ⟨?_, ?_, ?_⟩
  · intro ms a e h
    simp only [ConfigMapMapper.Map] at h
    match h1 : ms.RoleMapping (lowerStr a) with
    | (rm, none) => rw [h1] at h; cases h
    | (rm, some e1) =>
      rw [h1] at h
      match h2 : ms.UserMapping (lowerStr a) with
      | (um, none) => rw [h2] at h; cases h
      | (um, some e2) =>
        rw [h2] at h
        match h3 : ms.RoleArnLikeMapping (lowerStr a) with
        | (ralm, none) => rw [h3] at h; cases h
        | (ralm, some e3) =>
          rw [h3] at h
          match h4 : ms.UserArnLikeMapping (lowerStr a) with
          | (ualm, none) => rw [h4] at h; cases h
          | (ualm, some e4) =>
            rw [h4] at h
            cases h
            rfl
  · intro ms a um e1 h1 h2
    simp only [ConfigMapMapper.Map, h1, h2]
  · intro fm a e h1 h2 h3
    simp only [FileMapper.Map, h1, h2, h3]

/-- C9 witness: a store whose only entry is a user pattern that is not even
ARN-shaped makes every stage fail — the exact lookups with typed misses, the
pattern scans with pattern-evaluation errors — yet `Map` returns `notMapped`;
and on the static side the same broken pattern in the role table makes
`FileMapper.Map` surface the pattern-evaluation error itself. -/
theorem C9_map_error_swallowing_witness :
    Err.notMapped = Err.notMapped ∧
    FileMapper.Map ⟨[], [("foo", ⟨"", "foo", "x", []⟩)], [], [], []⟩
        "arn:aws:iam::1:user/a" =
      .error (.arnLike "could not parse arnLike string: foo") :=
  ⟨C9_map_error_swallowing.1 (saveMap [] [⟨"", "foo", "x", []⟩] [] [] [])
      "arn:aws:iam::1:user/a" .notMapped (by decide),
   C9_map_error_swallowing.2.2 ⟨[], [("foo", ⟨"", "foo", "x", []⟩)], [], [], []⟩
      "arn:aws:iam::1:user/a" "could not parse arnLike string: foo"
      (by decide) (by decide) (by decide)⟩

theorem roleStep_ok_iff (fm : FileMapper) (m : RoleMapping) :
    (∃ fm', roleStep fm m = .ok fm') ↔ roleMappingOk m = true := by
  unfold roleStep roleMappingOk
  by_cases h1 : m.roleARN = "" ∧ m.roleARNLike = ""
  · simp [h1]
  · by_cases h2 : m.roleARN ≠ "" ∧ m.roleARNLike ≠ ""
    · simp [h1, h2]
    · by_cases h3 : m.roleARN ≠ ""
      · simp only [if_neg h1, if_neg h2, if_pos h3]
        match hc : Canonicalize (lowerStr m.roleARN) with
        | .ok k => simp [Except.isOk, Except.toBool]
        | .error e => simp [Except.isOk, Except.toBool]
      · simp only [if_neg h1, if_neg h2, if_neg h3]
        match ha : ArnLike m.roleARNLike "arn:*:iam:*:*:role/*" with
        | .error e => simp
        | .ok false => simp
        | .ok true => simp

theorem userStep_ok_iff (fm : FileMapper) (m : UserMapping) :
    (∃ fm', userStep fm m = .ok fm') ↔ userMappingOk m = true := by
  unfold userStep userMappingOk
  by_cases h1 : m.userARN = "" ∧ m.userARNLike = ""
  · simp [h1]
  · by_cases h2 : m.userARN ≠ "" ∧ m.userARNLike ≠ ""
    · simp [h1, h2]
    · by_cases h3 : m.userARN ≠ ""
      · simp only [if_neg h1, if_neg h2, if_pos h3]
        match hc : Canonicalize (lowerStr m.userARN) with
        | .ok k => simp [Except.isOk, Except.toBool]
        | .error e => simp [Except.isOk, Except.toBool]
      · simp only [if_neg h1, if_neg h2, if_neg h3]
        match ha : ArnLike m.userARNLike "arn:*:iam:*:*:user/*" with
        | .error e => simp
        | .ok false => simp
        | .ok true => simp

theorem rolesLoop_ok_iff (l : List RoleMapping) : ∀ (fm : FileMapper),
    (∃ fm', rolesLoop fm l = .ok fm') ↔ ∀ m ∈ l, roleMappingOk m = true := by
  induction l with
  | nil => intro fm; simp [rolesLoop]
  | cons m rest ih =>
    intro fm
    simp only [rolesLoop]
    match hs : roleStep fm m with
    | .error e =>
      have hok : roleMappingOk m ≠ true := fun hmok => by
        obtain ⟨fm', hfm'⟩ := (roleStep_ok_iff fm m).mpr hmok
        rw [hs] at hfm'
        cases hfm'
      simp only [List.mem_cons]
      constructor
      · rintro ⟨fm', hfm'⟩; cases hfm'
      · intro h
        exact absurd (h m (Or.inl rfl)) hok
    | .ok fm1 =>
      have hok : roleMappingOk m = true := (roleStep_ok_iff fm m).mp ⟨fm1, hs⟩
      simp only [List.mem_cons]
      rw [show (∃ fm', rolesLoop fm1 rest = .ok fm') ↔ _ from ih fm1]
      constructor
      · intro h m' hm'
        rcases hm' with rfl | hm'
        · exact hok
        · exact h m' hm'
      · intro h m' hm'
        exact h m' (Or.inr hm')

theorem usersLoop_ok_iff (l : List UserMapping) : ∀ (fm : FileMapper),
    (∃ fm', usersLoop fm l = .ok fm') ↔ ∀ m ∈ l, userMappingOk m = true := by
  induction l with
  | nil => intro fm; simp [usersLoop]
  | cons m rest ih =>
    intro fm
    simp only [usersLoop]
    match hs : userStep fm m with
    | .error e =>
      have hok : userMappingOk m ≠ true := fun hmok => by
        obtain ⟨fm', hfm'⟩ := (userStep_ok_iff fm m).mpr hmok
        rw [hs] at hfm'
        cases hfm'
      simp only [List.mem_cons]
      constructor
      · rintro ⟨fm', hfm'⟩; cases hfm'
      · intro h
        exact absurd (h m (Or.inl rfl)) hok
    | .ok fm1 =>
      have hok : userMappingOk m = true := (userStep_ok_iff fm m).mp ⟨fm1, hs⟩
      simp only [List.mem_cons]
      rw [show (∃ fm', usersLoop fm1 rest = .ok fm') ↔ _ from ih fm1]
      constructor
      · intro h m' hm'
        rcases hm' with rfl | hm'
        · exact hok
        · exact h m' hm'
      · intro h m' hm'
        exact h m' (Or.inr hm')

/-- C5: `NewFileMapper` is fail-fast — it returns a mapper exactly when every
role mapping and every user mapping of the configuration passes its
validation (exactly one identifying field; exact ARNs canonicalize; ARN-like
patterns match the role/user shape); any invalid entry makes the whole
construction return an error and no mapper, so there is no partial static
load. -/
theorem C5_new_file_mapper_fail_fast (cfg : Config) :
    (∃ fm, NewFileMapper cfg = .ok fm) ↔
      ((∀ m ∈ cfg.roleMappings, roleMappingOk m = true) ∧
       (∀ m ∈ cfg.userMappings, userMappingOk m = true)) := by
  constructor
  · rintro ⟨fm, hfm⟩
    simp only [NewFileMapper] at hfm
    split at hfm
    · cases hfm
    · rename_i fm1 hr
      split at hfm
      · cases hfm
      · rename_i fm2 hu
        exact ⟨(rolesLoop_ok_iff cfg.roleMappings ⟨[], [], [], [], []⟩).mp ⟨fm1, hr⟩,
          (usersLoop_ok_iff cfg.userMappings fm1).mp ⟨fm2, hu⟩⟩
  · rintro ⟨h1, h2⟩
    obtain ⟨fm1, hr⟩ := (rolesLoop_ok_iff cfg.roleMappings ⟨[], [], [], [], []⟩).mpr h1
    obtain ⟨fm2, hu⟩ := (usersLoop_ok_iff cfg.userMappings fm1).mpr h2
    exact ⟨{ fm2 with accountMap :=
        cfg.autoMappedAWSAccounts.foldl (fun acc a => acc ++ [a]) fm2.accountMap },
      by simp only [NewFileMapper, hr, hu]⟩

/-- C1: for both backends `Map` lower-cases the input and tries, in order,
exact role, exact user, role-pattern scan, user-pattern scan, returning the
identity of the first match; an exact role entry wins regardless of the
pattern tables' contents; and when all four stages miss the result is
`ErrNotMapped`.  The five conjuncts per backend cover: role-exact hit,
user-exact hit after a role miss, role-pattern hit after both exact misses,
user-pattern hit after three misses, and the total miss. -/
theorem C1_map_resolution_order :
    (∀ (fm : FileMapper) (a : String),
      (∀ rm, lookupKey (lowerStr a) fm.lowercaseRoleMap = some rm →
        fm.Map a = .ok ⟨lowerStr a, rm.username, rm.groups⟩) ∧
      (∀ um, lookupKey (lowerStr a) fm.lowercaseRoleMap = none →
        lookupKey (lowerStr a) fm.lowercaseUserMap = some um →
        fm.Map a = .ok ⟨lowerStr a, um.username, um.groups⟩) ∧
      (∀ im, lookupKey (lowerStr a) fm.lowercaseRoleMap = none →
        lookupKey (lowerStr a) fm.lowercaseUserMap = none →
        scanRoleArnLikes (lowerStr a) fm.roleArnLikeMap = .ok (some im) →
        fm.Map a = .ok im) ∧
      (∀ im, lookupKey (lowerStr a) fm.lowercaseRoleMap = none →
        lookupKey (lowerStr a) fm.lowercaseUserMap = none →
        scanRoleArnLikes (lowerStr a) fm.roleArnLikeMap = .ok none →
        scanUserArnLikes (lowerStr a) fm.userArnLikeMap = .ok (some im) →
        fm.Map a = .ok im) ∧
      (lookupKey (lowerStr a) fm.lowercaseRoleMap = none →
        lookupKey (lowerStr a) fm.lowercaseUserMap = none →
        scanRoleArnLikes (lowerStr a) fm.roleArnLikeMap = .ok none →
        scanUserArnLikes (lowerStr a) fm.userArnLikeMap = .ok none →
        fm.Map a = .error .notMapped)) ∧
    (∀ (ms : MapStore) (a : String),
      (∀ rm, ms.RoleMapping (lowerStr a) = (rm, none) →
        ConfigMapMapper.Map ms a = .ok ⟨lowerStr a, rm.username, rm.groups⟩) ∧
      (∀ um e1, ms.RoleMapping (lowerStr a) = (emptyRoleMapping, some e1) →
        ms.UserMapping (lowerStr a) = (um, none) →
        ConfigMapMapper.Map ms a = .ok ⟨lowerStr a, um.username, um.groups⟩) ∧
      (∀ rm e1 e2, ms.RoleMapping (lowerStr a) = (emptyRoleMapping, some e1) →
        ms.UserMapping (lowerStr a) = (emptyUserMapping, some e2) →
        ms.RoleArnLikeMapping (lowerStr a) = (rm, none) →
        ConfigMapMapper.Map ms a = .ok ⟨lowerStr a, rm.username, rm.groups⟩) ∧
      (∀ um e1 e2 e3, ms.RoleMapping (lowerStr a) = (emptyRoleMapping, some e1) →
        ms.UserMapping (lowerStr a) = (emptyUserMapping, some e2) →
        ms.RoleArnLikeMapping (lowerStr a) = (emptyRoleMapping, some e3) →
        ms.UserArnLikeMapping (lowerStr a) = (um, none) →
        ConfigMapMapper.Map ms a = .ok ⟨lowerStr a, um.username, um.groups⟩) ∧
      (∀ e1 e2 e3 e4, ms.RoleMapping (lowerStr a) = (emptyRoleMapping, some e1) →
        ms.UserMapping (lowerStr a) = (emptyUserMapping, some e2) →
        ms.RoleArnLikeMapping (lowerStr a) = (emptyRoleMapping, some e3) →
        ms.UserArnLikeMapping (lowerStr a) = (emptyUserMapping, some e4) →
        ConfigMapMapper.Map ms a = .error .notMapped)) := by
  constructor
  · intro fm a
    refine ⟨?_, ?_, ?_, ?_, ?_⟩
    · intro rm h1
      simp only [FileMapper.Map, h1]
    · intro um h1 h2
      simp only [FileMapper.Map, h1, h2]
    · intro im h1 h2 h3
      simp only [FileMapper.Map, h1, h2, h3]
    · intro im h1 h2 h3 h4
      simp only [FileMapper.Map, h1, h2, h3, h4]
    · intro h1 h2 h3 h4
      simp only [FileMapper.Map, h1, h2, h3, h4]
  · intro ms a
    refine ⟨?_, ?_, ?_, ?_, ?_⟩
    · intro rm h1
      simp only [ConfigMapMapper.Map, h1]
    · intro um e1 h1 h2
      simp only [ConfigMapMapper.Map, h1, h2]
    · intro rm e1 e2 h1 h2 h3
      simp only [ConfigMapMapper.Map, h1, h2, h3]
    · intro um e1 e2 e3 h1 h2 h3 h4
      simp only [ConfigMapMapper.Map, h1, h2, h3, h4]
    · intro e1 e2 e3 e4 h1 h2 h3 h4
      simp only [ConfigMapMapper.Map, h1, h2, h3, h4]

/-- C1 witness: a static table with an exact role entry for the test-role
ARN and a pattern entry that also matches it — `Map` returns the exact
entry's identity; and the live store counterpart behaves the same; an empty
file mapper yields `notMapped`. -/
theorem C1_map_resolution_order_witness :
    FileMapper.Map
        ⟨[("arn:aws:iam::0123456789012:role/test-role",
           ⟨"arn:aws:iam::0123456789012:role/test-role", "", "roland", ["system:masters"]⟩)],
         [("arn:aws:iam::0123456789012:role/test-*",
           ⟨"", "arn:aws:iam::0123456789012:role/test-*", "pattern-user", []⟩)], [], [], []⟩
        "arn:aws:iam::0123456789012:role/test-role" =
      .ok ⟨"arn:aws:iam::0123456789012:role/test-role", "roland", ["system:masters"]⟩ ∧
    FileMapper.Map ⟨[], [], [], [], []⟩ "arn:aws:iam::0123456789012:role/test-role" =
      .error .notMapped :=
  ⟨(C1_map_resolution_order.1
      ⟨[("arn:aws:iam::0123456789012:role/test-role",
         ⟨"arn:aws:iam::0123456789012:role/test-role", "", "roland", ["system:masters"]⟩)],
       [("arn:aws:iam::0123456789012:role/test-*",
         ⟨"", "arn:aws:iam::0123456789012:role/test-*", "pattern-user", []⟩)], [], [], []⟩
      "arn:aws:iam::0123456789012:role/test-role").1
      ⟨"arn:aws:iam::0123456789012:role/test-role", "", "roland", ["system:masters"]⟩
      (by decide),
   (C1_map_resolution_order.1 ⟨[], [], [], [], []⟩
      "arn:aws:iam::0123456789012:role/test-role").2.2.2.2
      (by decide) (by decide) (by decide) (by decide)⟩

/-- C6: case handling — for both backends `Map` lower-cases the candidate
before any comparison, so `Map(a) = Map(lowercase(a))` for every input; while
ARN-like patterns are compared in their original case against the lower-cased
candidate, so a pattern containing an upper-case literal never matches any
candidate (third conjunct: the match evaluation on the lower-cased candidate
can never return a hit for such a pattern). -/
theorem C6_case_asymmetry :
    (∀ (fm : FileMapper) (a : String), fm.Map a = fm.Map (lowerStr a)) ∧
    (∀ (ms : MapStore) (a : String),
      ConfigMapMapper.Map ms a = ConfigMapMapper.Map ms (lowerStr a)) ∧
    (∀ (p a : String) (c : Char), c ∈ p.data → isUpperA c = true →
      ArnLike (lowerStr a) p ≠ .ok true) := by
  refine ⟨?_, ?_, ?_⟩
  · intro fm a
    simp only [FileMapper.Map, lowerStr_idem]
  · intro ms a
    simp only [ConfigMapMapper.Map, lowerStr_idem]
  · intro p a c hc hup
    unfold ArnLike
    by_cases h1 : arnShaped (lowerStr a) = false
    · simp [h1]
    · by_cases h2 : arnShaped p = false
      · simp [h1, h2]
      · simp only [h1, h2, if_false]
        have := globMatch_upper_pattern_false p (lowerStr a) c hc hup
          (fun d hd => not_upper_mem_lowerStr a d hd)
        rw [this]
        intro hcontra
        cases hcontra

/-- C6 witness: the exact-path invariance applied to a mixed-case input on
the test mapper, and the pattern fact applied to a role pattern with the
upper-case literal `R`: it does not match even its own lower-cased self. -/
theorem C6_case_asymmetry_witness :
    FileMapper.Map ⟨[], [], [], [], []⟩ "arn:aws:iam::1:role/Admin" =
      FileMapper.Map ⟨[], [], [], [], []⟩ (lowerStr "arn:aws:iam::1:role/Admin") ∧
    ArnLike (lowerStr "arn:aws:iam::1:Role/x") "arn:aws:iam::1:Role/x" ≠ .ok true :=
  ⟨C6_case_asymmetry.1 ⟨[], [], [], [], []⟩ "arn:aws:iam::1:role/Admin",
   C6_case_asymmetry.2.2 "arn:aws:iam::1:Role/x" "arn:aws:iam::1:Role/x" 'R'
     (by decide) (by decide)⟩

/-- C8: snapshot atomicity — in any interleaving of `saveMap`'s writer steps
with reader observations (reads being excluded while the write lock is held),
every observed store is either the complete pre-update store or the complete
post-update snapshot; no mixed generation is ever observed. -/
theorem C8_snapshot_atomicity (s0 : MapStore) (u ual : List UserMapping)
    (r ral : List RoleMapping) (a : List String) (obs : List MapStore)
    (h : Exec (s0, false) (saveMapProgram u ual r ral a) obs) :
    ∀ o ∈ obs, o = s0 ∨ o = saveMap u ual r ral a := by
  intro o ho
  have hm : onlyMutates (saveMapBody u ual r ral a) := by
    intro w hw
    simp only [saveMapBody, List.append_assoc, List.mem_append, List.mem_cons,
      List.not_mem_nil, or_false, List.mem_map] at hw
    rcases hw with (rfl | rfl | rfl | rfl | rfl) | ⟨x, _, rfl⟩ | ⟨x, _, rfl⟩ |
      ⟨x, _, rfl⟩ | ⟨x, _, rfl⟩ | ⟨x, _, rfl⟩ <;> exact ⟨_, rfl⟩
  have := exec_acquire_obs _ _ _ h (saveMapBody u ual r ral a) s0 hm rfl rfl o ho
  rcases this with h1 | h1
  · exact Or.inl h1
  · rw [run_saveMapBody] at h1
    exact Or.inr h1

/-- C8 witness: a concrete interleaving — one read before the writer starts
on an account-list update — observes only the pre-update store. -/
theorem C8_snapshot_atomicity_witness :
    (⟨[], [], [], [], []⟩ : MapStore) = ⟨[], [], [], [], []⟩ ∨
      (⟨[], [], [], [], []⟩ : MapStore) = saveMap [] [] [] [] ["123"] :=
  C8_snapshot_atomicity ⟨[], [], [], [], []⟩ [] [] [] [] ["123"]
    [⟨[], [], [], [], []⟩]
    (Exec.readObs rfl (Exec.wstep (Exec.wstep (Exec.wstep (Exec.wstep (Exec.wstep
      (Exec.wstep (Exec.wstep (Exec.wstep (Exec.nil _))))))))))
    ⟨[], [], [], [], []⟩ (List.mem_singleton.mpr rfl)

/-- C4 (failing input): the document already contains a user entry whose
identifying key (its ARN-like pattern) equals the entry being added, yet
`AddUser` detects no duplicate — it compares only the exact-ARN fields of the
parsed exact list — and happily re-encodes and writes, returning no error,
where the claim (and spec §4.8, and the repository's client test) demand a
duplicate-entry failure with no write. -/
theorem C4_duplicate_arnlike_not_detected :
    ((⟨"", "arn:aws:iam::0123456789012:user/?", "b", ["b"]⟩ : UserMapping) ∈
      (ConfigMapData.mk (some [⟨"", "arn:aws:iam::0123456789012:user/?", "b", ["b"]⟩])
        none none).mapUsers.getD []) ∧
    AddUser
        ⟨some [⟨"", "arn:aws:iam::0123456789012:user/?", "b", ["b"]⟩], none, none⟩
        ⟨"", "arn:aws:iam::0123456789012:user/?", "b", ["b"]⟩ =
      (some (EncodeMap [⟨"", "arn:aws:iam::0123456789012:user/?", "b", ["b"]⟩] [] []),
        none) := by
  decide

/-! ### Table-build lemmas for the duplicate-key analysis (C10) -/

theorem rolesLoop_append (l1 l2 : List RoleMapping) (fm : FileMapper) :
    rolesLoop fm (l1 ++ l2) =
      match rolesLoop fm l1 with
      | .error e => .error e
      | .ok fm1 => rolesLoop fm1 l2 := by
  induction l1 generalizing fm with
  | nil => simp [rolesLoop]
  | cons m rest ih =>
    simp only [List.cons_append, rolesLoop]
    match roleStep fm m with
    | .error e => rfl
    | .ok fm1 => exact ih fm1

theorem usersLoop_append (l1 l2 : List UserMapping) (fm : FileMapper) :
    usersLoop fm (l1 ++ l2) =
      match usersLoop fm l1 with
      | .error e => .error e
      | .ok fm1 => usersLoop fm1 l2 := by
  induction l1 generalizing fm with
  | nil => simp [usersLoop]
  | cons m rest ih =>
    simp only [List.cons_append, usersLoop]
    match userStep fm m with
    | .error e => rfl
    | .ok fm1 => exact ih fm1

/-- A successful `roleStep` either inserts an exact entry into the role table
under its canonical key, or inserts a pattern entry into the pattern table
under the literal pattern; the remaining three tables never change. -/
theorem roleStep_ok_shape (fm : FileMapper) (m : RoleMapping) (fm' : FileMapper)
    (h : roleStep fm m = .ok fm') :
    ((∃ k, m.roleARN ≠ "" ∧ Canonicalize (lowerStr m.roleARN) = .ok k ∧
        fm' = { fm with lowercaseRoleMap := mapInsert k m fm.lowercaseRoleMap }) ∨
     (m.roleARN = "" ∧
        fm' = { fm with roleArnLikeMap := mapInsert m.roleARNLike m fm.roleArnLikeMap })) := by
  unfold roleStep at h
  split at h
  · cases h
  · split at h
    · cases h
    · split at h
      · rename_i h1 h2 h3
        match hc : Canonicalize (lowerStr m.roleARN) with
        | .error e => rw [hc] at h; cases h
        | .ok k =>
          rw [hc] at h
          cases h
          exact Or.inl ⟨k, h3, rfl, rfl⟩
      · rename_i h1 h2 h3
        have hempty : m.roleARN = "" := by
          by_contra hc
          exact h3 hc
        match ha : ArnLike m.roleARNLike "arn:*:iam:*:*:role/*" with
        | .error e => rw [ha] at h; cases h
        | .ok false => rw [ha] at h; cases h
        | .ok true =>
          rw [ha] at h
          cases h
          exact Or.inr ⟨hempty, rfl⟩

/-- A successful `userStep` likewise touches only one user table. -/
theorem userStep_ok_shape (fm : FileMapper) (m : UserMapping) (fm' : FileMapper)
    (h : userStep fm m = .ok fm') :
    ((∃ k, m.userARN ≠ "" ∧ Canonicalize (lowerStr m.userARN) = .ok k ∧
        fm' = { fm with lowercaseUserMap := mapInsert k m fm.lowercaseUserMap }) ∨
     (m.userARN = "" ∧
        fm' = { fm with userArnLikeMap := mapInsert m.userARNLike m fm.userArnLikeMap })) := by
  unfold userStep at h
  split at h
  · cases h
  · split at h
    · cases h
    · split at h
      · rename_i h1 h2 h3
        match hc : Canonicalize (lowerStr m.userARN) with
        | .error e => rw [hc] at h; cases h
        | .ok k =>
          rw [hc] at h
          cases h
          exact Or.inl ⟨k, h3, rfl, rfl⟩
      · rename_i h1 h2 h3
        have hempty : m.userARN = "" := by
          by_contra hc
          exact h3 hc
        match ha : ArnLike m.userARNLike "arn:*:iam:*:*:user/*" with
        | .error e => rw [ha] at h; cases h
        | .ok false => rw [ha] at h; cases h
        | .ok true =>
          rw [ha] at h
          cases h
          exact Or.inr ⟨hempty, rfl⟩

theorem rolesLoop_preserves_user_tables (l : List RoleMapping) :
    ∀ (fm fm' : FileMapper), rolesLoop fm l = .ok fm' →
      fm'.lowercaseUserMap = fm.lowercaseUserMap ∧
      fm'.userArnLikeMap = fm.userArnLikeMap ∧
      fm'.accountMap = fm.accountMap := by
  induction l with
  | nil =>
    intro fm fm' h
    simp only [rolesLoop] at h
    cases h
    exact ⟨rfl, rfl, rfl⟩
  | cons m rest ih =>
    intro fm fm' h
    simp only [rolesLoop] at h
    match hs : roleStep fm m with
    | .error e => rw [hs] at h; cases h
    | .ok fm1 =>
      rw [hs] at h
      have hshape := roleStep_ok_shape fm m fm1 hs
      have hrest := ih fm1 fm' h
      rcases hshape with ⟨k, _, _, rfl⟩ | ⟨_, rfl⟩ <;>
        exact ⟨hrest.1, hrest.2.1, hrest.2.2⟩

theorem usersLoop_preserves_role_tables (l : List UserMapping) :
    ∀ (fm fm' : FileMapper), usersLoop fm l = .ok fm' →
      fm'.lowercaseRoleMap = fm.lowercaseRoleMap ∧
      fm'.roleArnLikeMap = fm.roleArnLikeMap ∧
      fm'.accountMap = fm.accountMap := by
  induction l with
  | nil =>
    intro fm fm' h
    simp only [usersLoop] at h
    cases h
    exact ⟨rfl, rfl, rfl⟩
  | cons m rest ih =>
    intro fm fm' h
    simp only [usersLoop] at h
    match hs : userStep fm m with
    | .error e => rw [hs] at h; cases h
    | .ok fm1 =>
      rw [hs] at h
      have hshape := userStep_ok_shape fm m fm1 hs
      have hrest := ih fm1 fm' h
      rcases hshape with ⟨k, _, _, rfl⟩ | ⟨_, rfl⟩ <;>
        exact ⟨hrest.1, hrest.2.1, hrest.2.2⟩

theorem rolesLoop_preserves_exact_lookup (l : List RoleMapping) :
    ∀ (fm fm' : FileMapper) (k : String), rolesLoop fm l = .ok fm' →
      (∀ m ∈ l, roleTableKey m ≠ some k) →
      lookupKey k fm'.lowercaseRoleMap = lookupKey k fm.lowercaseRoleMap := by
  induction l with
  | nil =>
    intro fm fm' k h _
    simp only [rolesLoop] at h
    cases h
    rfl
  | cons m rest ih =>
    intro fm fm' k h hnone
    simp only [rolesLoop] at h
    match hs : roleStep fm m with
    | .error e => rw [hs] at h; cases h
    | .ok fm1 =>
      rw [hs] at h
      have hrest := ih fm1 fm' k h (fun m' hm' => hnone m' (List.mem_cons_of_mem _ hm'))
      rw [hrest]
      rcases roleStep_ok_shape fm m fm1 hs with ⟨k', harn, hc, rfl⟩ | ⟨_, rfl⟩
      · have hk' : roleTableKey m = some k' := by
          simp [roleTableKey, harn, hc, Except.toOption]
        have : k' ≠ k := by
          intro hkk
          exact hnone m (List.mem_cons_self _ _) (hkk ▸ hk')
        exact lookupKey_mapInsert_ne k k' m _ this
      · rfl

theorem rolesLoop_preserves_pattern_lookup (l : List RoleMapping) :
    ∀ (fm fm' : FileMapper) (k : String), rolesLoop fm l = .ok fm' →
      (∀ m ∈ l, rolePatternKey m ≠ some k) →
      lookupKey k fm'.roleArnLikeMap = lookupKey k fm.roleArnLikeMap := by
  induction l with
  | nil =>
    intro fm fm' k h _
    simp only [rolesLoop] at h
    cases h
    rfl
  | cons m rest ih =>
    intro fm fm' k h hnone
    simp only [rolesLoop] at h
    match hs : roleStep fm m with
    | .error e => rw [hs] at h; cases h
    | .ok fm1 =>
      rw [hs] at h
      have hrest := ih fm1 fm' k h (fun m' hm' => hnone m' (List.mem_cons_of_mem _ hm'))
      rw [hrest]
      rcases roleStep_ok_shape fm m fm1 hs with ⟨k', harn, hc, rfl⟩ | ⟨hempty, rfl⟩
      · rfl
      · have hk' : rolePatternKey m = some m.roleARNLike := by
          simp [rolePatternKey, hempty]
        have : m.roleARNLike ≠ k := by
          intro hkk
          exact hnone m (List.mem_cons_self _ _) (hkk ▸ hk')
        exact lookupKey_mapInsert_ne k _ m _ this

theorem usersLoop_preserves_exact_lookup (l : List UserMapping) :
    ∀ (fm fm' : FileMapper) (k : String), usersLoop fm l = .ok fm' →
      (∀ m ∈ l, userTableKey m ≠ some k) →
      lookupKey k fm'.lowercaseUserMap = lookupKey k fm.lowercaseUserMap := by
  induction l with
  | nil =>
    intro fm fm' k h _
    simp only [usersLoop] at h
    cases h
    rfl
  | cons m rest ih =>
    intro fm fm' k h hnone
    simp only [usersLoop] at h
    match hs : userStep fm m with
    | .error e => rw [hs] at h; cases h
    | .ok fm1 =>
      rw [hs] at h
      have hrest := ih fm1 fm' k h (fun m' hm' => hnone m' (List.mem_cons_of_mem _ hm'))
      rw [hrest]
      rcases userStep_ok_shape fm m fm1 hs with ⟨k', harn, hc, rfl⟩ | ⟨_, rfl⟩
      · have hk' : userTableKey m = some k' := by
          simp [userTableKey, harn, hc, Except.toOption]
        have : k' ≠ k := by
          intro hkk
          exact hnone m (List.mem_cons_self _ _) (hkk ▸ hk')
        exact lookupKey_mapInsert_ne k k' m _ this
      · rfl

theorem usersLoop_preserves_pattern_lookup (l : List UserMapping) :
    ∀ (fm fm' : FileMapper) (k : String), usersLoop fm l = .ok fm' →
      (∀ m ∈ l, userPatternKey m ≠ some k) →
      lookupKey k fm'.userArnLikeMap = lookupKey k fm.userArnLikeMap := by
  induction l with
  | nil =>
    intro fm fm' k h _
    simp only [usersLoop] at h
    cases h
    rfl
  | cons m rest ih =>
    intro fm fm' k h hnone
    simp only [usersLoop] at h
    match hs : userStep fm m with
    | .error e => rw [hs] at h; cases h
    | .ok fm1 =>
      rw [hs] at h
      have hrest := ih fm1 fm' k h (fun m' hm' => hnone m' (List.mem_cons_of_mem _ hm'))
      rw [hrest]
      rcases userStep_ok_shape fm m fm1 hs with ⟨k', harn, hc, rfl⟩ | ⟨hempty, rfl⟩
      · rfl
      · have hk' : userPatternKey m = some m.userARNLike := by
          simp [userPatternKey, hempty]
        have : m.userARNLike ≠ k := by
          intro hkk
          exact hnone m (List.mem_cons_self _ _) (hkk ▸ hk')
        exact lookupKey_mapInsert_ne k _ m _ this

theorem except_toOption_eq_some {ε α : Type} (e : Except ε α) (a : α) :
    e.toOption = some a ↔ e = .ok a := by
  cases e <;> simp [Except.toOption]

theorem roleTableKey_eq_some (m : RoleMapping) (k : String) :
    roleTableKey m = some k ↔
      (m.roleARN ≠ "" ∧ Canonicalize (lowerStr m.roleARN) = .ok k) := by
  unfold roleTableKey
  by_cases h : m.roleARN ≠ ""
  · simp [h, except_toOption_eq_some]
  · simp [h]

theorem userTableKey_eq_some (m : UserMapping) (k : String) :
    userTableKey m = some k ↔
      (m.userARN ≠ "" ∧ Canonicalize (lowerStr m.userARN) = .ok k) := by
  unfold userTableKey
  by_cases h : m.userARN ≠ ""
  · simp [h, except_toOption_eq_some]
  · simp [h]

theorem NewFileMapper_role_exact_last (cfg : Config) (pre post : List RoleMapping)
    (m2 : RoleMapping) (k : String)
    (hvr : ∀ m ∈ cfg.roleMappings, roleMappingOk m = true)
    (hvu : ∀ m ∈ cfg.userMappings, userMappingOk m = true)
    (hsplit : cfg.roleMappings = pre ++ m2 :: post)
    (hk2 : roleTableKey m2 = some k)
    (hpost : ∀ m ∈ post, roleTableKey m ≠ some k) :
    ∃ fm, NewFileMapper cfg = .ok fm ∧ lookupKey k fm.lowercaseRoleMap = some m2 := by
  obtain ⟨fm1, hr⟩ :=
    (rolesLoop_ok_iff cfg.roleMappings ⟨[], [], [], [], []⟩).mpr hvr
  obtain ⟨fm2, hu⟩ := (usersLoop_ok_iff cfg.userMappings fm1).mpr hvu
  refine ⟨{ fm2 with accountMap :=
      cfg.autoMappedAWSAccounts.foldl (fun acc x => acc ++ [x]) fm2.accountMap },
    by simp only [NewFileMapper, hr, hu], ?_⟩
  have hfm2role : fm2.lowercaseRoleMap = fm1.lowercaseRoleMap :=
    (usersLoop_preserves_role_tables cfg.userMappings fm1 fm2 hu).1
  show lookupKey k fm2.lowercaseRoleMap = some m2
  rw [hfm2role]
  rw [hsplit, rolesLoop_append] at hr
  match hp : rolesLoop ⟨[], [], [], [], []⟩ pre with
  | .error e => rw [hp] at hr; cases hr
  | .ok fmp =>
    rw [hp] at hr
    simp only [rolesLoop] at hr
    match hs : roleStep fmp m2 with
    | .error e => rw [hs] at hr; cases hr
    | .ok fmq =>
      rw [hs] at hr
      obtain ⟨harn, hcanon⟩ := (roleTableKey_eq_some m2 k).mp hk2
      rcases roleStep_ok_shape fmp m2 fmq hs with ⟨k', _, hc', rfl⟩ | ⟨hempty, _⟩
      · have hk' : k' = k := by
          rw [hc'] at hcanon
          cases hcanon
          rfl
        subst hk'
        rw [rolesLoop_preserves_exact_lookup post _ _ _ hr hpost]
        exact lookupKey_mapInsert_self k' m2 fmp.lowercaseRoleMap
      · exact absurd hempty harn

theorem NewFileMapper_role_pattern_last (cfg : Config) (pre post : List RoleMapping)
    (m2 : RoleMapping)
    (hvr : ∀ m ∈ cfg.roleMappings, roleMappingOk m = true)
    (hvu : ∀ m ∈ cfg.userMappings, userMappingOk m = true)
    (hsplit : cfg.roleMappings = pre ++ m2 :: post)
    (hk2 : m2.roleARN = "")
    (hpost : ∀ m ∈ post, rolePatternKey m ≠ some m2.roleARNLike) :
    ∃ fm, NewFileMapper cfg = .ok fm ∧
      lookupKey m2.roleARNLike fm.roleArnLikeMap = some m2 := by
  obtain ⟨fm1, hr⟩ :=
    (rolesLoop_ok_iff cfg.roleMappings ⟨[], [], [], [], []⟩).mpr hvr
  obtain ⟨fm2, hu⟩ := (usersLoop_ok_iff cfg.userMappings fm1).mpr hvu
  refine ⟨{ fm2 with accountMap :=
      cfg.autoMappedAWSAccounts.foldl (fun acc x => acc ++ [x]) fm2.accountMap },
    by simp only [NewFileMapper, hr, hu], ?_⟩
  have hfm2role : fm2.roleArnLikeMap = fm1.roleArnLikeMap :=
    (usersLoop_preserves_role_tables cfg.userMappings fm1 fm2 hu).2.1
  show lookupKey m2.roleARNLike fm2.roleArnLikeMap = some m2
  rw [hfm2role]
  rw [hsplit, rolesLoop_append] at hr
  match hp : rolesLoop ⟨[], [], [], [], []⟩ pre with
  | .error e => rw [hp] at hr; cases hr
  | .ok fmp =>
    rw [hp] at hr
    simp only [rolesLoop] at hr
    match hs : roleStep fmp m2 with
    | .error e => rw [hs] at hr; cases hr
    | .ok fmq =>
      rw [hs] at hr
      rcases roleStep_ok_shape fmp m2 fmq hs with ⟨k', harn', _, _⟩ | ⟨_, rfl⟩
      · exact absurd hk2 harn'
      · rw [rolesLoop_preserves_pattern_lookup post _ _ _ hr hpost]
        exact lookupKey_mapInsert_self m2.roleARNLike m2 fmp.roleArnLikeMap

theorem NewFileMapper_user_exact_last (cfg : Config) (pre post : List UserMapping)
    (m2 : UserMapping) (k : String)
    (hvr : ∀ m ∈ cfg.roleMappings, roleMappingOk m = true)
    (hvu : ∀ m ∈ cfg.userMappings, userMappingOk m = true)
    (hsplit : cfg.userMappings = pre ++ m2 :: post)
    (hk2 : userTableKey m2 = some k)
    (hpost : ∀ m ∈ post, userTableKey m ≠ some k) :
    ∃ fm, NewFileMapper cfg = .ok fm ∧ lookupKey k fm.lowercaseUserMap = some m2 := by
  obtain ⟨fm1, hr⟩ :=
    (rolesLoop_ok_iff cfg.roleMappings ⟨[], [], [], [], []⟩).mpr hvr
  obtain ⟨fm2, hu⟩ := (usersLoop_ok_iff cfg.userMappings fm1).mpr hvu
  refine ⟨{ fm2 with accountMap :=
      cfg.autoMappedAWSAccounts.foldl (fun acc x => acc ++ [x]) fm2.accountMap },
    by simp only [NewFileMapper, hr, hu], ?_⟩
  show lookupKey k fm2.lowercaseUserMap = some m2
  rw [hsplit, usersLoop_append] at hu
  match hp : usersLoop fm1 pre with
  | .error e => rw [hp] at hu; cases hu
  | .ok fmp =>
    rw [hp] at hu
    simp only [usersLoop] at hu
    match hs : userStep fmp m2 with
    | .error e => rw [hs] at hu; cases hu
    | .ok fmq =>
      rw [hs] at hu
      obtain ⟨harn, hcanon⟩ := (userTableKey_eq_some m2 k).mp hk2
      rcases userStep_ok_shape fmp m2 fmq hs with ⟨k', _, hc', rfl⟩ | ⟨hempty, _⟩
      · have hk' : k' = k := by
          rw [hc'] at hcanon
          cases hcanon
          rfl
        subst hk'
        rw [usersLoop_preserves_exact_lookup post _ _ _ hu hpost]
        exact lookupKey_mapInsert_self k' m2 fmp.lowercaseUserMap
      · exact absurd hempty harn

theorem NewFileMapper_user_pattern_last (cfg : Config) (pre post : List UserMapping)
    (m2 : UserMapping)
    (hvr : ∀ m ∈ cfg.roleMappings, roleMappingOk m = true)
    (hvu : ∀ m ∈ cfg.userMappings, userMappingOk m = true)
    (hsplit : cfg.userMappings = pre ++ m2 :: post)
    (hk2 : m2.userARN = "")
    (hpost : ∀ m ∈ post, userPatternKey m ≠ some m2.userARNLike) :
    ∃ fm, NewFileMapper cfg = .ok fm ∧
      lookupKey m2.userARNLike fm.userArnLikeMap = some m2 := by
  obtain ⟨fm1, hr⟩ :=
    (rolesLoop_ok_iff cfg.roleMappings ⟨[], [], [], [], []⟩).mpr hvr
  obtain ⟨fm2, hu⟩ := (usersLoop_ok_iff cfg.userMappings fm1).mpr hvu
  refine ⟨{ fm2 with accountMap :=
      cfg.autoMappedAWSAccounts.foldl (fun acc x => acc ++ [x]) fm2.accountMap },
    by simp only [NewFileMapper, hr, hu], ?_⟩
  show lookupKey m2.userARNLike fm2.userArnLikeMap = some m2
  rw [hsplit, usersLoop_append] at hu
  match hp : usersLoop fm1 pre with
  | .error e => rw [hp] at hu; cases hu
  | .ok fmp =>
    rw [hp] at hu
    simp only [usersLoop] at hu
    match hs : userStep fmp m2 with
    | .error e => rw [hs] at hu; cases hu
    | .ok fmq =>
      rw [hs] at hu
      rcases userStep_ok_shape fmp m2 fmq hs with ⟨k', harn', _, _⟩ | ⟨_, rfl⟩
      · exact absurd hk2 harn'
      · rw [usersLoop_preserves_pattern_lookup post _ _ _ hu hpost]
        exact lookupKey_mapInsert_self m2.userARNLike m2 fmp.userArnLikeMap

theorem lookupKey_foldl_mapInsert_notin {α : Type} (keyf : α → String) (l : List α)
    (k : String) : ∀ (t0 : List (String × α)), (∀ m ∈ l, keyf m ≠ k) →
    lookupKey k (l.foldl (fun t x => mapInsert (keyf x) x t) t0) = lookupKey k t0 := by
  induction l with
  | nil => intro t0 _; rfl
  | cons x rest ih =>
    intro t0 hnone
    rw [List.foldl_cons, ih _ (fun m hm => hnone m (List.mem_cons_of_mem _ hm))]
    exact lookupKey_mapInsert_ne k (keyf x) x t0 (hnone x (List.mem_cons_self _ _))

theorem lookupKey_foldl_mapInsert_last {α : Type} (keyf : α → String)
    (pre post : List α) (m2 : α) (k : String) (t0 : List (String × α))
    (hk : keyf m2 = k) (hpost : ∀ m ∈ post, keyf m ≠ k) :
    lookupKey k ((pre ++ m2 :: post).foldl (fun t x => mapInsert (keyf x) x t) t0) =
      some m2 := by
  rw [List.foldl_append, List.foldl_cons,
    lookupKey_foldl_mapInsert_notin keyf post k _ hpost, hk]
  exact lookupKey_mapInsert_self k m2 _

/-- C10: duplicate identifying keys are never detected; the later entry wins.
Conjuncts 1–4: for a valid static configuration in which two role (resp.
user) mappings share the same exact-table (resp. pattern-table) key and the
second of them is the last entry with that key, `NewFileMapper` succeeds and
the built table maps the key to the later entry.  Conjuncts 5–8: `saveMap`
(which always succeeds — it is total) likewise keys each table by
lower-cased ARN or literal pattern with overwrite, so the later list entry
wins. -/
theorem C10_later_duplicate_wins :
    (∀ (cfg : Config) (pre post : List RoleMapping) (m1 m2 : RoleMapping) (k : String),
      (∀ m ∈ cfg.roleMappings, roleMappingOk m = true) →
      (∀ m ∈ cfg.userMappings, userMappingOk m = true) →
      cfg.roleMappings = pre ++ m2 :: post →
      m1 ∈ pre → roleTableKey m1 = some k → roleTableKey m2 = some k →
      (∀ m ∈ post, roleTableKey m ≠ some k) →
      ∃ fm, NewFileMapper cfg = .ok fm ∧ lookupKey k fm.lowercaseRoleMap = some m2) ∧
    (∀ (cfg : Config) (pre post : List RoleMapping) (m1 m2 : RoleMapping),
      (∀ m ∈ cfg.roleMappings, roleMappingOk m = true) →
      (∀ m ∈ cfg.userMappings, userMappingOk m = true) →
      cfg.roleMappings = pre ++ m2 :: post →
      m1 ∈ pre → rolePatternKey m1 = some m2.roleARNLike → m2.roleARN = "" →
      (∀ m ∈ post, rolePatternKey m ≠ some m2.roleARNLike) →
      ∃ fm, NewFileMapper cfg = .ok fm ∧
        lookupKey m2.roleARNLike fm.roleArnLikeMap = some m2) ∧
    (∀ (cfg : Config) (pre post : List UserMapping) (m1 m2 : UserMapping) (k : String),
      (∀ m ∈ cfg.roleMappings, roleMappingOk m = true) →
      (∀ m ∈ cfg.userMappings, userMappingOk m = true) →
      cfg.userMappings = pre ++ m2 :: post →
      m1 ∈ pre → userTableKey m1 = some k → userTableKey m2 = some k →
      (∀ m ∈ post, userTableKey m ≠ some k) →
      ∃ fm, NewFileMapper cfg = .ok fm ∧ lookupKey k fm.lowercaseUserMap = some m2) ∧
    (∀ (cfg : Config) (pre post : List UserMapping) (m1 m2 : UserMapping),
      (∀ m ∈ cfg.roleMappings, roleMappingOk m = true) →
      (∀ m ∈ cfg.userMappings, userMappingOk m = true) →
      cfg.userMappings = pre ++ m2 :: post →
      m1 ∈ pre → userPatternKey m1 = some m2.userARNLike → m2.userARN = "" →
      (∀ m ∈ post, userPatternKey m ≠ some m2.userARNLike) →
      ∃ fm, NewFileMapper cfg = .ok fm ∧
        lookupKey m2.userARNLike fm.userArnLikeMap = some m2) ∧
    (∀ (u ual : List UserMapping) (ral : List RoleMapping) (a : List String)
        (pre post : List RoleMapping) (m1 m2 : RoleMapping) (k : String),
      m1 ∈ pre → lowerStr m1.roleARN = k → lowerStr m2.roleARN = k →
      (∀ m ∈ post, lowerStr m.roleARN ≠ k) →
      lookupKey k (saveMap u ual (pre ++ m2 :: post) ral a).roles = some m2) ∧
    (∀ (u ual : List UserMapping) (r : List RoleMapping) (a : List String)
        (pre post : List RoleMapping) (m1 m2 : RoleMapping),
      m1 ∈ pre → m1.roleARNLike = m2.roleARNLike →
      (∀ m ∈ post, m.roleARNLike ≠ m2.roleARNLike) →
      lookupKey m2.roleARNLike
        (saveMap u ual r (pre ++ m2 :: post) a).roleArnLikes = some m2) ∧
    (∀ (ual : List UserMapping) (r ral : List RoleMapping) (a : List String)
        (pre post : List UserMapping) (m1 m2 : UserMapping) (k : String),
      m1 ∈ pre → lowerStr m1.userARN = k → lowerStr m2.userARN = k →
      (∀ m ∈ post, lowerStr m.userARN ≠ k) →
      lookupKey k (saveMap (pre ++ m2 :: post) ual r ral a).users = some m2) ∧
    (∀ (u : List UserMapping) (r ral : List RoleMapping) (a : List String)
        (pre post : List UserMapping) (m1 m2 : UserMapping),
      m1 ∈ pre → m1.userARNLike = m2.userARNLike →
      (∀ m ∈ post, m.userARNLike ≠ m2.userARNLike) →
      lookupKey m2.userARNLike
        (saveMap u (pre ++ m2 :: post) r ral a).userArnLikes = some m2) := by
  refine ⟨?_, ?_, ?_, ?_, ?_, ?_, ?_, ?_⟩
  · intro cfg pre post m1 m2 k hvr hvu hsplit _ _ hk2 hpost
    exact NewFileMapper_role_exact_last cfg pre post m2 k hvr hvu hsplit hk2 hpost
  · intro cfg pre post m1 m2 hvr hvu hsplit _ _ hk2 hpost
    exact NewFileMapper_role_pattern_last cfg pre post m2 hvr hvu hsplit hk2 hpost
  · intro cfg pre post m1 m2 k hvr hvu hsplit _ _ hk2 hpost
    exact NewFileMapper_user_exact_last cfg pre post m2 k hvr hvu hsplit hk2 hpost
  · intro cfg pre post m1 m2 hvr hvu hsplit _ _ hk2 hpost
    exact NewFileMapper_user_pattern_last cfg pre post m2 hvr hvu hsplit hk2 hpost
  · intro u ual ral a pre post m1 m2 k _ _ hk2 hpost
    exact lookupKey_foldl_mapInsert_last (fun r => lowerStr r.roleARN)
      pre post m2 k [] hk2 hpost
  · intro u ual r a pre post m1 m2 _ _ hpost
    exact lookupKey_foldl_mapInsert_last (fun r => r.roleARNLike)
      pre post m2 m2.roleARNLike [] rfl hpost
  · intro ual r ral a pre post m1 m2 k _ _ hk2 hpost
    exact lookupKey_foldl_mapInsert_last (fun x => lowerStr x.userARN)
      pre post m2 k [] hk2 hpost
  · intro u r ral a pre post m1 m2 _ _ hpost
    exact lookupKey_foldl_mapInsert_last (fun x => x.userARNLike)
      pre post m2 m2.userARNLike [] rfl hpost

/-- C10 witness: two exact role entries for the same ARN (differing only in
username) — the static construction succeeds and the table holds the later
entry; the live store behaves the same. -/
theorem C10_later_duplicate_wins_witness :
    (∃ fm, NewFileMapper ⟨[⟨"arn:aws:iam::1:role/a", "", "u1", []⟩,
        ⟨"arn:aws:iam::1:role/a", "", "u2", []⟩], [], []⟩ = .ok fm ∧
      lookupKey "arn:aws:iam::1:role/a" fm.lowercaseRoleMap =
        some ⟨"arn:aws:iam::1:role/a", "", "u2", []⟩) ∧
    lookupKey "arn:aws:iam::1:role/a"
        (saveMap [] [] [⟨"arn:aws:iam::1:role/a", "", "u1", []⟩,
          ⟨"arn:aws:iam::1:role/a", "", "u2", []⟩] [] []).roles =
      some ⟨"arn:aws:iam::1:role/a", "", "u2", []⟩ :=
  ⟨C10_later_duplicate_wins.1
      ⟨[⟨"arn:aws:iam::1:role/a", "", "u1", []⟩,
        ⟨"arn:aws:iam::1:role/a", "", "u2", []⟩], [], []⟩
      [⟨"arn:aws:iam::1:role/a", "", "u1", []⟩] []
      ⟨"arn:aws:iam::1:role/a", "", "u1", []⟩
      ⟨"arn:aws:iam::1:role/a", "", "u2", []⟩
      "arn:aws:iam::1:role/a"
      (by decide) (by decide) (by decide) (by decide) (by decide) (by decide) (by decide),
   C10_later_duplicate_wins.2.2.2.2.1 [] [] [] []
      [⟨"arn:aws:iam::1:role/a", "", "u1", []⟩] []
      ⟨"arn:aws:iam::1:role/a", "", "u1", []⟩
      ⟨"arn:aws:iam::1:role/a", "", "u2", []⟩
      "arn:aws:iam::1:role/a"
      (by decide) (by decide) (by decide) (by decide)⟩

